import Mathlib

/-! EBack authentication routes (`routes/auth.js`)

A shallow embedding of the Express router in `routes/auth.js`: the session-token
extraction, the JWT based login / who-am-I / location refresh handlers, and the
password-reset workflow, followed by theorems about them.

Conventions of the embedding

* A JavaScript value that may be `undefined` is an `Option`; `truthy` is the JS
  truthiness test the handlers apply with `!x`.
* `Date.now()` is a natural number of milliseconds, read once per request from `Env`.
* The `jsonwebtoken` and `bcryptjs` libraries are parameters (`JwtLib`, `Bcrypt`);
  `JwtLib.sign` and `JwtLib.verify` add the `iat` / `exp` handling of the library on top
  of an abstract signed serialisation.
* The user collection is a list of documents in insertion order; the queries the
  routes issue are modelled over it.  Storage calls do not fail in this model.
-/

set_option autoImplicit false

namespace EBack

/-! ## JavaScript helpers -/

/-- JS truthiness of a string that may be `undefined`: `undefined` and `""` are falsy. -/
def truthy : Option String → Bool
  | none => false
  | some s => s != ""

/-- The list-of-characters core of `String.prototype.replace` with a string pattern:
only the first occurrence of `pat`, wherever it starts, is replaced by `rep`. -/
def replaceFirstChars (pat rep : List Char) : List Char → List Char
  | [] => if pat.isEmpty then rep else []
  | c :: cs =>
    if pat.isPrefixOf (c :: cs) then rep ++ (c :: cs).drop pat.length
    else c :: replaceFirstChars pat rep cs

/-- The JS call `s.replace(pat, rep)` for a string pattern `pat`. -/
def jsReplace (s pat rep : String) : String :=
  ⟨replaceFirstChars pat.data rep.data s.data⟩

/-! ## Collaborators -/

/-- Claims object of a token: the routes sign `{ userId }` or `{ instructorId }`,
the library adds `iat` and, with `expiresIn`, `exp` (both in seconds). -/
structure Payload where
  userId : Option Nat
  instructorId : Option Nat
  iat : Nat
  exp : Option Nat
  deriving DecidableEq, Repr

/-- The signed serialisation of the `jsonwebtoken` library: `encode secret payload` is the
compact token string, `decode secret token` checks structure and signature and returns
the claims (`none` when the library would throw). -/
structure JwtLib where
  encode : String → Payload → String
  decode : String → String → Option Payload

/-- The call `jwt.sign(claims, secret, { expiresIn })` made at `now` milliseconds, with
`expiresIn` already in seconds; `claims` carries the caller's keys.  The library stamps
`iat` with the clock in whole seconds and `exp` with `iat + expiresIn`; the token string
is a function of the claims, these two numbers and the secret, nothing random enters. -/
def JwtLib.sign (jwt : JwtLib) (userId instructorId : Option Nat) (secret : String)
    (expiresIn now : Nat) : String :=
  jwt.encode secret
    { userId := userId, instructorId := instructorId,
      iat := now / 1000, exp := some (now / 1000 + expiresIn) }

/-- The call `jwt.verify(token, secret)` made at `now` milliseconds: `none` stands for a
thrown error (bad structure, bad signature, or `exp` reached). -/
def JwtLib.verify (jwt : JwtLib) (token secret : String) (now : Nat) : Option Payload :=
  match jwt.decode secret token with
  | none => none
  | some p =>
    match p.exp with
    | some e => if now / 1000 ≥ e then none else some p
    | none => some p

/-- What the routes rely on from the token library: a signed token decodes, under the
same secret, to the claims it was signed with, and is never the empty string. -/
def JwtLib.Lawful (jwt : JwtLib) : Prop :=
  ∀ (secret : String) (p : Payload),
    jwt.decode secret (jwt.encode secret p) = some p ∧ jwt.encode secret p ≠ ""

/-- The `bcryptjs` calls the routes make: `hash plaintext rounds salt` (the salt stands
for the library's randomness) and `compare plaintext hashText`. -/
structure Bcrypt where
  hash : String → Nat → Nat → String
  compare : String → String → Bool

/-- The hypotheses the specification states for the hasher: a plaintext verifies
against its own hash and against the hash of no other plaintext. -/
def Bcrypt.Lawful (bc : Bcrypt) : Prop :=
  ∀ (p q : String) (rounds salt : Nat), bc.compare p (bc.hash q rounds salt) = decide (p = q)

/-- Result of `getUserLocation(req)`. -/
structure Location where
  city : Option String
  state : Option String
  country : Option String
  deriving DecidableEq, Repr

/-- What a handler reads from outside the store while serving one request. -/
structure Env where
  now : Nat
  location : Location
  salt : Nat
  mailOk : Bool
  deriving DecidableEq, Repr

/-! ## Documents and queries -/

/-- Modelled from the spec: the end-user account document of `models/User` (the
schema file is not part of the sources); the fields are those the routes read or
write. -/
structure User where
  _id : Nat
  firstName : String
  lastName : String
  email : String
  password : String
  role : Option String
  city : Option String
  state : Option String
  country : Option String
  package : Option String
  courses : Option (List String)
  resetPasswordToken : Option String
  resetPasswordExpires : Option Nat
  deriving DecidableEq, Repr

/-- Modelled from the spec: the instructor account document of `models/Instructor`,
kept in a store disjoint from the end users. -/
structure Instructor where
  _id : Nat
  email : String
  password : String
  deriving DecidableEq, Repr

/-- Modelled from the spec: `User.findOne({ email })`, the first document with that
email. -/
def findOneByEmail (db : List User) (email : String) : Option User :=
  db.find? (fun u => u.email == email)

/-- Modelled from the spec: `User.findById(id)`; an `undefined` id finds nothing. -/
def findById (db : List User) (id : Option Nat) : Option User :=
  match id with
  | none => none
  | some i => db.find? (fun u => u._id == i)

/-- Modelled from the spec: the filter
`{ _id, resetPasswordToken: token, resetPasswordExpires: { $gt: now } }` on one document;
all three conditions are required, and an `undefined` id selects no document. -/
def resetFilter (id : Option Nat) (token : String) (now : Nat) (u : User) : Bool :=
  (some u._id == id) && (u.resetPasswordToken == some token) &&
    (match u.resetPasswordExpires with
     | some e => decide (e > now)
     | none => false)

/-- Modelled from the spec: `User.findOne` with the reset filter. -/
def findOneReset (db : List User) (id : Option Nat) (token : String) (now : Nat) :
    Option User :=
  db.find? (resetFilter id token now)

/-- Modelled from the spec: `user.save()` on a document loaded from the collection:
the stored document with that `_id` is replaced. -/
def saveUser (db : List User) (u : User) : List User :=
  db.map (fun x => if x._id = u._id then u else x)

/-- Modelled from the spec: the identity assigned to a new document, unused so far. -/
def freshId (db : List User) : Nat :=
  db.foldr (fun u m => max u._id m) 0 + 1

/-- Modelled from the spec: `newUser.save()` on a document created with `new User`. -/
def insertUser (db : List User) (u : User) : List User :=
  db ++ [u]

/-- Modelled from the spec: `Instructor.findOne({ email })`. -/
def findInstructorByEmail (db : List Instructor) (email : String) : Option Instructor :=
  db.find? (fun u => u.email == email)

/-- Data-model invariant: ids identify documents. -/
def UniqueIds (db : List User) : Prop :=
  ∀ x ∈ db, ∀ y ∈ db, x._id = y._id → x = y

/-- Data-model invariant: emails are unique among end users. -/
def UniqueEmails (db : List User) : Prop :=
  ∀ x ∈ db, ∀ y ∈ db, x.email = y.email → x = y

/-- No document with the subject of `p` as id stores the token `t`. -/
def tokenCleared (p : Payload) (t : String) (db : List User) : Prop :=
  ∀ x ∈ db, some x._id = p.userId → x.resetPasswordToken ≠ some t

/-! ## Responses -/

/-- The JSON bodies the routes send. -/
inductive Body where
  | message (message : String)
  | error (error : String)
  | signup (message : String) (location : Location)
  | login (message : String) (package : Option String) (userId : Nat) (token : String)
      (city state country : Option String)
  | instructorLogin (message : String) (isInstructor : Bool) (instructorId : Nat)
      (token : String)
  | locationUpdated (success : Bool) (message : String) (location : Location)
  | profile (email : String) (package : Option String) (courses : List String)
      (firstName lastName role : String)
  deriving DecidableEq, Repr

/-- Status, body and the cookie (name, value) set by `res.cookie`, if any. -/
structure Response where
  status : Nat
  body : Body
  cookie : Option (String × String)
  deriving DecidableEq, Repr

/-- One call of `transporter.sendMail`: the recipient (`to`), the language code the template
was looked up with, and the token placed in the reset link. -/
structure Mail where
  recipient : String
  language : String
  resetToken : String
  deriving DecidableEq, Repr

/-- What a handler leaves behind: the response, the user collection, and the calls it
made to the mail collaborator. -/
structure Outcome where
  res : Response
  users : List User
  mails : List Mail
  deriving DecidableEq, Repr

/-! ## The router -/

/-- The module constant `JWT_SECRET`: a string literal in the source; the process
environment is not read. -/
def JWT_SECRET : String := "this_is_a_secure_jwt_secret_123456"

/-- The `expiresIn: 2d` of session tokens, in seconds. -/
def sessionTtl : Nat := 2 * 24 * 60 * 60

/-- The `expiresIn: 1h` of reset tokens, in seconds. -/
def resetTtl : Nat := 60 * 60

/-- The request parts `GET /me` and `PUT /update-location` read. -/
structure Request where
  cookieToken : Option String
  authorization : Option String
  deriving DecidableEq, Repr

/-- The variable `token` of `/me` and `/update-location` after the cookie and header
have been looked at, before the `if (!token)` test. -/
def extractToken (req : Request) : Option String :=
  let token := req.cookieToken
  if !truthy token && truthy req.authorization then
    match req.authorization with
    | some a => some (jsReplace a "Bearer " "")
    | none => token
  else token

/-- Handler of `POST /signup`. -/
def signup (bc : Bcrypt) (db : List User) (env : Env)
    (firstName lastName email password role : Option String) : Outcome :=
  if !truthy firstName || !truthy lastName || !truthy email || !truthy password then
    ⟨⟨400, .message "All fields are required.", none⟩, db, []⟩
  else
    match findOneByEmail db (email.getD "") with
    | some _ => ⟨⟨409, .message "Email already registered.", none⟩, db, []⟩
    | none =>
      let hashedPassword := bc.hash (password.getD "") 10 env.salt
      let userLocation := env.location
      let newUser : User :=
        { _id := freshId db
          firstName := firstName.getD ""
          lastName := lastName.getD ""
          email := email.getD ""
          password := hashedPassword
          role := if truthy role then role else some "user"
          city := userLocation.city
          state := userLocation.state
          country := userLocation.country
          package := none
          courses := none
          resetPasswordToken := none
          resetPasswordExpires := none }
      ⟨⟨201, .signup "User registered successfully." userLocation, none⟩,
        insertUser db newUser, []⟩

/-- Handler of `POST /login`; the body carries `email` and `password` as strings. -/
def login (jwt : JwtLib) (bc : Bcrypt) (db : List User) (env : Env)
    (email password : String) : Outcome :=
  match findOneByEmail db email with
  | none => ⟨⟨400, .message "Invalid credentials", none⟩, db, []⟩
  | some user =>
    if !bc.compare password user.password then
      ⟨⟨400, .message "Invalid credentials", none⟩, db, []⟩
    else
      let refresh := !truthy user.city || user.city == some "Unknown"
      let user1 : User :=
        if refresh then
          { user with city := env.location.city, state := env.location.state,
                      country := env.location.country }
        else user
      let db1 := if refresh then saveUser db user1 else db
      let token := jwt.sign (some user._id) none JWT_SECRET sessionTtl env.now
      ⟨⟨200, .login "Login successful" user1.package user1._id token
            user1.city user1.state user1.country, some ("token", token)⟩, db1, []⟩

/-- Handler of `PUT /update-location`. -/
def updateLocation (jwt : JwtLib) (db : List User) (env : Env) (req : Request) : Outcome :=
  match extractToken req with
  | none => ⟨⟨401, .error "No token", none⟩, db, []⟩
  | some token =>
    if token == "" then ⟨⟨401, .error "No token", none⟩, db, []⟩
    else
      match jwt.verify token JWT_SECRET env.now with
      | none => ⟨⟨500, .error "Error updating location", none⟩, db, []⟩
      | some decoded =>
        match findById db decoded.userId with
        | none => ⟨⟨404, .error "User not found", none⟩, db, []⟩
        | some user =>
          let userLocation := env.location
          let user1 : User :=
            { user with city := userLocation.city, state := userLocation.state,
                        country := userLocation.country }
          ⟨⟨200, .locationUpdated true "Location updated successfully" userLocation, none⟩,
            saveUser db user1, []⟩

/-- Handler of `POST /instructor-login`. -/
def instructorLogin (jwt : JwtLib) (bc : Bcrypt) (instructors : List Instructor) (env : Env)
    (email password : String) : Response :=
  match findInstructorByEmail instructors email with
  | none => ⟨400, .message "Invalid credentials", none⟩
  | some instructor =>
    if !bc.compare password instructor.password then
      ⟨400, .message "Invalid credentials", none⟩
    else
      let token := jwt.sign none (some instructor._id) JWT_SECRET sessionTtl env.now
      ⟨200, .instructorLogin "Instructor login successful" true instructor._id token,
        some ("instructor_token", token)⟩

/-- Handler of `POST /forgot-password`. -/
def forgotPassword (jwt : JwtLib) (db : List User) (env : Env)
    (email language : Option String) : Outcome :=
  let language := language.getD "en"
  if !truthy email then ⟨⟨400, .message "Email is required.", none⟩, db, []⟩
  else
    match findOneByEmail db (email.getD "") with
    | none =>
      ⟨⟨200, .message "If that email exists, a reset link has been sent.", none⟩, db, []⟩
    | some user =>
      let resetToken := jwt.sign (some user._id) none JWT_SECRET resetTtl env.now
      let user1 : User :=
        { user with resetPasswordToken := some resetToken,
                    resetPasswordExpires := some (env.now + 3600000) }
      let db1 := saveUser db user1
      let mail : Mail := ⟨user1.email, language, resetToken⟩
      if env.mailOk then
        ⟨⟨200, .message "If that email exists, a reset link has been sent.", none⟩,
          db1, [mail]⟩
      else
        ⟨⟨500, .message "Error sending reset email.", none⟩, db1, [mail]⟩

/-- Handler of `POST /reset-password`. -/
def resetPassword (jwt : JwtLib) (bc : Bcrypt) (db : List User) (env : Env)
    (token newPassword : Option String) : Outcome :=
  if !truthy token || !truthy newPassword then
    ⟨⟨400, .message "Token and new password are required.", none⟩, db, []⟩
  else
    match jwt.verify (token.getD "") JWT_SECRET env.now with
    | none => ⟨⟨400, .message "Invalid or expired token.", none⟩, db, []⟩
    | some decoded =>
      match findOneReset db decoded.userId (token.getD "") env.now with
      | none => ⟨⟨400, .message "Invalid or expired token.", none⟩, db, []⟩
      | some user =>
        let user1 : User :=
          { user with password := bc.hash (newPassword.getD "") 10 env.salt,
                      resetPasswordToken := none,
                      resetPasswordExpires := none }
        ⟨⟨200, .message "Password has been reset successfully.", none⟩,
          saveUser db user1, []⟩

/-- The JSON object `GET /me` sends for the document it found. -/
def profileOf (user : User) : Body :=
  .profile user.email user.package (user.courses.getD []) user.firstName user.lastName
    (if truthy user.role then user.role.getD "" else "user")

/-- Handler of `GET /me`. -/
def me (jwt : JwtLib) (db : List User) (env : Env) (req : Request) : Response :=
  match extractToken req with
  | none => ⟨401, .error "No token", none⟩
  | some token =>
    if token == "" then ⟨401, .error "No token", none⟩
    else
      match jwt.verify token JWT_SECRET env.now with
      | none => ⟨401, .error "Invalid token", none⟩
      | some decoded =>
        match findById db decoded.userId with
        | none => ⟨404, .error "User not found", none⟩
        | some user =>
          ⟨200, profileOf user, none⟩

/-! ## Sequences of requests -/

/-- One request to the router. -/
inductive Op where
  | signup (firstName lastName email password role : Option String)
  | login (email password : String)
  | updateLocation (req : Request)
  | instructorLogin (email password : String)
  | forgotPassword (email language : Option String)
  | resetPassword (token newPassword : Option String)
  | me (req : Request)
  deriving DecidableEq, Repr

/-- Serve one request on the user collection `db`. -/
def step (jwt : JwtLib) (bc : Bcrypt) (instructors : List Instructor) (db : List User)
    (env : Env) : Op → Outcome
  | .signup firstName lastName email password role =>
    signup bc db env firstName lastName email password role
  | .login email password => login jwt bc db env email password
  | .updateLocation req => updateLocation jwt db env req
  | .instructorLogin email password =>
    ⟨instructorLogin jwt bc instructors env email password, db, []⟩
  | .forgotPassword email language => forgotPassword jwt db env email language
  | .resetPassword token newPassword => resetPassword jwt bc db env token newPassword
  | .me req => ⟨me jwt db env req, db, []⟩

/-- Serve a sequence of requests one after the other and return the user collection
they leave. -/
def run (jwt : JwtLib) (bc : Bcrypt) (instructors : List Instructor) :
    List User → List (Env × Op) → List User
  | db, [] => db
  | db, (env, op) :: rest =>
    run jwt bc instructors (step jwt bc instructors db env op).users rest

/-- The calls to the mail collaborator made while a sequence of requests is served, in
order. -/
def mailsOf (jwt : JwtLib) (bc : Bcrypt) (instructors : List Instructor) :
    List User → List (Env × Op) → List Mail
  | _, [] => []
  | db, (env, op) :: rest =>
    (step jwt bc instructors db env op).mails ++
      mailsOf jwt bc instructors (step jwt bc instructors db env op).users rest

/-- The `token` field of a response body, when it has one. -/
def Body.token? : Body → Option String
  | .login _ _ _ token _ _ _ => some token
  | .instructorLogin _ _ _ token => some token
  | _ => none

/-- The `userId` field of a response body, when it has one. -/
def Body.userId? : Body → Option Nat
  | .login _ _ userId _ _ _ _ => some userId
  | _ => none

/-! ## The extractor in the words of the specification -/

/-- Strip a literal leading `Bearer ` from a header value; a value that does not start
with it is left unchanged. -/
def stripBearer (a : String) : String :=
  if "Bearer ".data.isPrefixOf a.data then ⟨a.data.drop "Bearer ".data.length⟩ else a

/-- The session extractor as the specification words it: the cookie when it is a
non-empty string, otherwise the header with its leading `Bearer ` stripped, and
`none` (Absent) when neither yields a non-empty string. -/
def extractSpec (req : Request) : Option String :=
  if truthy req.cookieToken then req.cookieToken
  else
    match req.authorization with
    | none => none
    | some a => if stripBearer a = "" then none else some (stripBearer a)

/-- The token `/me` and `/update-location` go on to verify: the extracted value when it
passes the `if (!token)` test, `none` when the handler answers 401 `No token`. -/
def usedToken (req : Request) : Option String :=
  if truthy (extractToken req) then extractToken req else none

/-- The two transports of a session token `t`: the `token` cookie, or, without a usable
cookie, the header `Authorization: Bearer t`. -/
def carries (req : Request) (t : String) : Prop :=
  req.cookieToken = some t ∨
    (truthy req.cookieToken = false ∧ req.authorization = some ("Bearer " ++ t))

/-! ## Module load -/

/-- Values the trailing statements of the module store on the global object. -/
inductive GlobalValue where
  | str (s : String)
  | requireFunction
  | moduleObject
  deriving DecidableEq, Repr

/-- The global object of the process, as a finite map from property names. -/
abbrev Globals := List (String × GlobalValue)

/-- The assignment `global[key] = value`. -/
def setGlobal (g : Globals) (key : String) (value : GlobalValue) : Globals :=
  (key, value) :: g.filter (fun kv => kv.1 != key)

/-- The read `global[key]`. -/
def getGlobal (g : Globals) (key : String) : Option GlobalValue :=
  (g.find? (fun kv => kv.1 == key)).map (fun kv => kv.2)

/-- The statements that follow `module.exports = router;` on the last line of the
module, up to the call of the anonymous function: `global._V = A4`, `global.r = require`
and, `module` being an object in a CommonJS module, `global.m = module`.  The anonymous
function that is called next builds its body from scrambled strings at run time and is
not embedded. -/
def moduleTrailer (g : Globals) : Globals :=
  let g1 := setGlobal g "_V" (.str "A4")
  let g2 := setGlobal g1 "r" .requireFunction
  setGlobal g2 "m" .moduleObject

/-! ## A reference instance of the collaborators

A token codec and a hasher that satisfy `JwtLib.Lawful` and `Bcrypt.Lawful`; they show
the hypotheses of the theorems below are satisfiable and let the handlers be evaluated
on concrete requests. -/

/-- Binary digits of `n`, least significant first; `fuel` bounds the number of digits. -/
def bitsFuel : Nat → Nat → List Char
  | 0, _ => []
  | fuel + 1, n =>
    if n = 0 then []
    else (if n % 2 = 1 then '1' else '0') :: bitsFuel fuel (n / 2)

/-- Binary numeral followed by a dot. -/
def encodeNat (n : Nat) (rest : List Char) : List Char :=
  bitsFuel n n ++ '.' :: rest

/-- Inverse of `encodeNat`. -/
def parseNat : List Char → Option (Nat × List Char)
  | [] => none
  | c :: cs =>
    if c = '.' then some (0, cs)
    else if c = '0' then (parseNat cs).map (fun r => (2 * r.1, r.2))
    else if c = '1' then (parseNat cs).map (fun r => (2 * r.1 + 1, r.2))
    else none

/-- An optional numeral: `-` for none, `+` and the numeral otherwise. -/
def encodeOpt (o : Option Nat) (rest : List Char) : List Char :=
  match o with
  | none => '-' :: rest
  | some n => '+' :: encodeNat n rest

/-- Inverse of `encodeOpt`. -/
def parseOpt : List Char → Option (Option Nat × List Char)
  | [] => none
  | c :: cs =>
    if c = '-' then some (none, cs)
    else if c = '+' then (parseNat cs).map (fun r => (some r.1, r.2))
    else none

/-- Serialise the claims and append the secret as the signature. -/
def demoEncode (secret : String) (p : Payload) : String :=
  ⟨'J' :: encodeOpt p.userId (encodeOpt p.instructorId
    (encodeNat p.iat (encodeOpt p.exp secret.data)))⟩

/-- Parse the claims and check the signature. -/
def demoDecode (secret token : String) : Option Payload :=
  match token.data with
  | [] => none
  | c :: cs =>
    if c = 'J' then
      match parseOpt cs with
      | none => none
      | some (userId, r1) =>
        match parseOpt r1 with
        | none => none
        | some (instructorId, r2) =>
          match parseNat r2 with
          | none => none
          | some (iat, r3) =>
            match parseOpt r3 with
            | none => none
            | some (exp, r4) =>
              if r4 = secret.data then some ⟨userId, instructorId, iat, exp⟩ else none
    else none

/-- The reference token codec. -/
def demoJwt : JwtLib := ⟨demoEncode, demoDecode⟩

/-- The reference hasher: the salt in unary, a separator, the plaintext. -/
def demoBcrypt : Bcrypt :=
  ⟨fun p _ salt => ⟨List.replicate salt '$' ++ '#' :: p.data⟩,
   fun p h => h.data.dropWhile (fun c => c == '$') == '#' :: p.data⟩

/-- A stored end user whose password is `secret1`. -/
def alice : User :=
  { _id := 1
    firstName := "Alice"
    lastName := "Archer"
    email := "a@x.com"
    password := demoBcrypt.hash "secret1" 10 3
    role := none
    city := some "Lahore"
    state := some "Punjab"
    country := some "PK"
    package := none
    courses := none
    resetPasswordToken := none
    resetPasswordExpires := none }

/-- An environment that differs from request to request only in the clock. -/
def envAt (now : Nat) : Env := ⟨now, ⟨some "Lahore", some "Punjab", some "PK"⟩, 0, true⟩

/-- The reset token the reference codec signs for `alice` at 1000 ms. -/
def aliceResetToken : String := demoJwt.sign (some 1) none JWT_SECRET resetTtl 1000

/-- The document of `alice` while that reset token is outstanding. -/
def alicePending : User :=
  { alice with resetPasswordToken := some aliceResetToken,
               resetPasswordExpires := some 3601000 }

/-! ## Lemmas on the helpers and collaborators -/

theorem parseNat_bitsFuel (fuel : Nat) :
    ∀ (n : Nat) (rest : List Char), n ≤ fuel →
      parseNat (bitsFuel fuel n ++ '.' :: rest) = some (n, rest) := by
  induction fuel with
  | zero =>
    intro n rest hn
    have : n = 0 := by omega
    subst this
    simp [bitsFuel, parseNat]
  | succ k ih =>
    intro n rest hn
    by_cases h0 : n = 0
    · subst h0
      simp [bitsFuel, parseNat]
    · have hk : n / 2 ≤ k := by omega
      have hrec := ih (n / 2) rest hk
      by_cases h1 : n % 2 = 1
      · have hn2 : 2 * (n / 2) + 1 = n := by omega
        simp [bitsFuel, h0, h1, parseNat, hrec, hn2]
      · have hn2 : 2 * (n / 2) = n := by omega
        simp [bitsFuel, h0, h1, parseNat, hrec, hn2]

theorem parseNat_encodeNat (n : Nat) (rest : List Char) :
    parseNat (encodeNat n rest) = some (n, rest) :=
  parseNat_bitsFuel n n rest (Nat.le_refl n)

theorem parseOpt_encodeOpt (o : Option Nat) (rest : List Char) :
    parseOpt (encodeOpt o rest) = some (o, rest) := by
  cases o with
  | none => simp [encodeOpt, parseOpt]
  | some n => simp [encodeOpt, parseOpt, parseNat_encodeNat]

theorem demoJwt_lawful : demoJwt.Lawful := by
  intro secret p
  constructor
  · simp [demoJwt, demoEncode, demoDecode, parseOpt_encodeOpt, parseNat_encodeNat]
  · intro h
    have := congrArg String.data h
    simp [demoJwt, demoEncode] at this

theorem demoBcrypt_lawful : demoBcrypt.Lawful := by
  intro p q rounds salt
  have h : ∀ (k : Nat) (l : List Char),
      (List.replicate k '$' ++ '#' :: l).dropWhile (fun c => c == '$') = '#' :: l := by
    intro k l
    induction k with
    | zero => simp [List.dropWhile]
    | succ k ih => simp [List.replicate_succ, List.dropWhile, ih]
  simp only [demoBcrypt, h]
  by_cases hpq : p = q
  · simp [hpq]
  · have : ¬ q.data = p.data := fun e => hpq (String.ext e.symm)
    simp [hpq, this]

theorem replaceFirstChars_append (pat s : List Char) (hp : pat ≠ []) :
    replaceFirstChars pat [] (pat ++ s) = s := by
  cases pat with
  | nil => exact absurd rfl hp
  | cons c cs =>
    have hpre : (c :: cs).isPrefixOf (c :: (cs ++ s)) = true := by
      have := List.isPrefixOf_iff_prefix.mpr (List.prefix_append (c :: cs) s)
      simp
    have hdrop : (c :: (cs ++ s)).drop (c :: cs).length = s := by
      simp
    show replaceFirstChars (c :: cs) [] (c :: (cs ++ s)) = s
    rw [replaceFirstChars, if_pos hpre, hdrop]
    rfl

theorem jsReplace_bearer (t : String) : jsReplace ("Bearer " ++ t) "Bearer " "" = t := by
  have h := replaceFirstChars_append "Bearer ".data t.data (by decide)
  show (⟨replaceFirstChars "Bearer ".data "".data ("Bearer " ++ t).data⟩ : String) = t
  rw [String.data_append]
  exact String.ext h

theorem truthy_some_iff (t : String) : truthy (some t) = true ↔ t ≠ "" := by
  simp [truthy]

theorem extractToken_cookie (req : Request) (t : String)
    (hc : req.cookieToken = some t) (hne : t ≠ "") : extractToken req = some t := by
  have ht : truthy (some t) = true := (truthy_some_iff t).mpr hne
  simp [extractToken, hc, ht]

theorem extractToken_bearer (req : Request) (t : String)
    (hc : truthy req.cookieToken = false)
    (ha : req.authorization = some ("Bearer " ++ t)) : extractToken req = some t := by
  have hb : truthy (some ("Bearer " ++ t)) = true := by
    rw [truthy_some_iff]
    intro h
    have := congrArg String.data h
    rw [String.data_append] at this
    exact absurd this (by simp)
  simp [extractToken, hc, ha, hb, jsReplace_bearer]

theorem verify_sign (jwt : JwtLib) (h : jwt.Lawful) (uid iid : Option Nat)
    (ttl now0 now : Nat) :
    jwt.verify (jwt.sign uid iid JWT_SECRET ttl now0) JWT_SECRET now =
      if now / 1000 ≥ now0 / 1000 + ttl then none
      else some ⟨uid, iid, now0 / 1000, some (now0 / 1000 + ttl)⟩ := by
  simp only [JwtLib.verify, JwtLib.sign, (h _ _).1]

theorem sign_ne_empty (jwt : JwtLib) (h : jwt.Lawful) (uid iid : Option Nat)
    (ttl now0 : Nat) : jwt.sign uid iid JWT_SECRET ttl now0 ≠ "" :=
  (h _ _).2

theorem instructorLogin_token (jwt : JwtLib) (bc : Bcrypt) (instructors : List Instructor)
    (env0 : Env) (email password name tok : String)
    (h : (instructorLogin jwt bc instructors env0 email password).cookie = some (name, tok)) :
    ∃ i : Nat, tok = jwt.sign none (some i) JWT_SECRET sessionTtl env0.now := by
  unfold instructorLogin at h
  split at h
  · simp at h
  · rename_i instructor _
    split at h
    · simp at h
    · simp at h
      exact ⟨instructor._id, h.2.symm⟩

theorem me_of_token (jwt : JwtLib) (db : List User) (env : Env) (req : Request) (t : String)
    (hx : extractToken req = some t) (hne : t ≠ "") :
    me jwt db env req =
      match jwt.verify t JWT_SECRET env.now with
      | none => ⟨401, .error "Invalid token", none⟩
      | some decoded =>
        match findById db decoded.userId with
        | none => ⟨404, .error "User not found", none⟩
        | some user =>
          ⟨200, profileOf user, none⟩ := by
  simp [me, hx, hne]

theorem updateLocation_of_token (jwt : JwtLib) (db : List User) (env : Env) (req : Request)
    (t : String) (hx : extractToken req = some t) (hne : t ≠ "") :
    updateLocation jwt db env req =
      match jwt.verify t JWT_SECRET env.now with
      | none => ⟨⟨500, .error "Error updating location", none⟩, db, []⟩
      | some decoded =>
        match findById db decoded.userId with
        | none => ⟨⟨404, .error "User not found", none⟩, db, []⟩
        | some user =>
          ⟨⟨200, .locationUpdated true "Location updated successfully" env.location, none⟩,
            saveUser db { user with city := env.location.city, state := env.location.state,
                                    country := env.location.country }, []⟩ := by
  simp [updateLocation, hx, hne]

/-! ## Session extraction -/

/-- C5: with no cookie and the header `xBearer y`, the handlers go on with the token
`xy` (the first occurrence of `Bearer ` is removed wherever it starts), while the
extractor of the specification leaves a header without the leading prefix unchanged
and yields `xBearer y`. -/
theorem extractToken_removes_inner_bearer :
    usedToken ⟨none, some "xBearer y"⟩ = some "xy" ∧
      extractSpec ⟨none, some "xBearer y"⟩ = some "xBearer y" := by
  decide

/-- C6: a request to `PUT /update-location` whose non-empty token fails verification is
answered with status 500 and `Error updating location`, and the store is left as it
was; the same request to `GET /me` is answered with 401 `Invalid token`. -/
theorem updateLocation_invalid_token (jwt : JwtLib) (db : List User) (env : Env)
    (req : Request) (t : String) (hx : extractToken req = some t) (hne : t ≠ "")
    (hv : jwt.verify t JWT_SECRET env.now = none) :
    updateLocation jwt db env req =
        ⟨⟨500, .error "Error updating location", none⟩, db, []⟩ ∧
      me jwt db env req = ⟨401, .error "Invalid token", none⟩ := by
  rw [updateLocation_of_token jwt db env req t hx hne, me_of_token jwt db env req t hx hne, hv]
  exact ⟨rfl, rfl⟩

theorem updateLocation_invalid_token_witness :
    (updateLocation demoJwt [] ⟨5000, ⟨none, none, none⟩, 0, true⟩
        ⟨some "not-a-token", none⟩).res.status = 500 ∧
      (me demoJwt [] ⟨5000, ⟨none, none, none⟩, 0, true⟩
        ⟨some "not-a-token", none⟩).status = 401 := by
  have h := updateLocation_invalid_token demoJwt [] ⟨5000, ⟨none, none, none⟩, 0, true⟩
    ⟨some "not-a-token", none⟩ "not-a-token" (by decide) (by decide) (by decide)
  rw [h.1, h.2]
  exact ⟨rfl, rfl⟩

/-! ## Subject kinds -/

/-- What `GET /me` answers to a token signed with the claim `instructorId` only: before
the token expires the lookup by the absent `userId` finds nothing. -/
theorem me_instructor_token (jwt : JwtLib) (hj : jwt.Lawful) (i now0 : Nat)
    (db : List User) (env : Env) (req : Request)
    (hx : extractToken req = some (jwt.sign none (some i) JWT_SECRET sessionTtl now0)) :
    me jwt db env req =
      if env.now / 1000 < now0 / 1000 + sessionTtl then ⟨404, .error "User not found", none⟩
      else ⟨401, .error "Invalid token", none⟩ := by
  rw [me_of_token jwt db env req _ hx (sign_ne_empty jwt hj _ _ _ _), verify_sign jwt hj]
  by_cases h : env.now / 1000 < now0 / 1000 + sessionTtl
  · have h2 : ¬ env.now / 1000 ≥ now0 / 1000 + sessionTtl := by omega
    simp [h, h2, findById]
  · have h2 : env.now / 1000 ≥ now0 / 1000 + sessionTtl := by omega
    simp [h, h2]

theorem extractToken_of_carries (req : Request) (t : String) (hne : t ≠ "")
    (h : carries req t) : extractToken req = some t := by
  rcases h with h | ⟨hc, ha⟩
  · exact extractToken_cookie req t h hne
  · exact extractToken_bearer req t hc ha

/-- C3, refuted as stated: an instructor logs in and presents the issued token to
`GET /me` in the `token` cookie one second later; the answer is 404, not 401. -/
theorem instructor_token_on_me_not_401 :
    (instructorLogin demoJwt demoBcrypt [⟨7, "i@x.com", demoBcrypt.hash "pw" 10 0⟩]
        ⟨1000, ⟨none, none, none⟩, 0, true⟩ "i@x.com" "pw").cookie =
        some ("instructor_token", demoJwt.sign none (some 7) JWT_SECRET sessionTtl 1000) ∧
      (me demoJwt [] ⟨2000, ⟨none, none, none⟩, 0, true⟩
        ⟨some (demoJwt.sign none (some 7) JWT_SECRET sessionTtl 1000), none⟩).status = 404 := by
  decide

/-- C3, amended: the token issued by `POST /instructor-login`, presented to `GET /me`
in the `token` cookie or in the `Authorization` header, is never resolved to an account:
before its 2-day expiry the answer is 404 `User not found`, from the expiry on it is
401 `Invalid token`. -/
theorem instructor_token_on_me (jwt : JwtLib) (hj : jwt.Lawful) (bc : Bcrypt)
    (instructors : List Instructor) (env0 : Env) (email password tok : String)
    (hlogin : (instructorLogin jwt bc instructors env0 email password).cookie =
      some ("instructor_token", tok))
    (db : List User) (env : Env) (req : Request) (hreq : carries req tok) :
    me jwt db env req =
      if env.now / 1000 < env0.now / 1000 + sessionTtl then
        ⟨404, .error "User not found", none⟩
      else ⟨401, .error "Invalid token", none⟩ := by
  obtain ⟨i, hi⟩ := instructorLogin_token jwt bc instructors env0 email password _ tok hlogin
  subst hi
  exact me_instructor_token jwt hj i env0.now db env req
    (extractToken_of_carries req _ (sign_ne_empty jwt hj _ _ _ _) hreq)

theorem instructor_token_on_me_witness :
    me demoJwt [] ⟨2000, ⟨none, none, none⟩, 0, true⟩
        ⟨none, some ("Bearer " ++ demoJwt.sign none (some 7) JWT_SECRET sessionTtl 1000)⟩ =
      ⟨404, .error "User not found", none⟩ :=
  instructor_token_on_me demoJwt demoJwt_lawful demoBcrypt
    [⟨7, "i@x.com", demoBcrypt.hash "pw" 10 0⟩] ⟨1000, ⟨none, none, none⟩, 0, true⟩
    "i@x.com" "pw" _ (by decide) [] ⟨2000, ⟨none, none, none⟩, 0, true⟩ _
    (Or.inr ⟨rfl, rfl⟩)

/-! ## Login and who-am-I -/

theorem findById_id (db : List User) (i : Nat) (u : User)
    (h : findById db (some i) = some u) : u._id = i := by
  have := List.find?_some h
  simpa using this

theorem me_session_token (jwt : JwtLib) (hj : jwt.Lawful) (i ttl now0 : Nat)
    (db : List User) (u1 : User) (env : Env) (req : Request)
    (hfind : findById db (some i) = some u1)
    (hnow : env.now / 1000 < now0 / 1000 + ttl)
    (hreq : carries req (jwt.sign (some i) none JWT_SECRET ttl now0)) :
    me jwt db env req = ⟨200, profileOf u1, none⟩ := by
  have hx := extractToken_of_carries req _ (sign_ne_empty jwt hj _ _ _ _) hreq
  have h2 : ¬ env.now / 1000 ≥ now0 / 1000 + ttl := by omega
  rw [me_of_token jwt db env req _ hx (sign_ne_empty jwt hj _ _ _ _), verify_sign jwt hj]
  simp [h2, hfind]

theorem login_success (jwt : JwtLib) (bc : Bcrypt) (db : List User) (env0 : Env)
    (email password : String) (u : User)
    (hu : findOneByEmail db email = some u)
    (hpw : bc.compare password u.password = true) :
    (login jwt bc db env0 email password).res.status = 200 ∧
      (login jwt bc db env0 email password).res.cookie =
        some ("token", jwt.sign (some u._id) none JWT_SECRET sessionTtl env0.now) ∧
      (login jwt bc db env0 email password).res.body.token? =
        some (jwt.sign (some u._id) none JWT_SECRET sessionTtl env0.now) ∧
      (login jwt bc db env0 email password).res.body.userId? = some u._id := by
  simp only [login, hu, hpw]
  by_cases hr : (!truthy u.city || u.city == some "Unknown") = true
  · simp [hr, Body.token?, Body.userId?]
  · simp [hr, Body.token?, Body.userId?]

theorem findById_of_unique (db : List User) (hid : UniqueIds db) (u : User)
    (hu : u ∈ db) : findById db (some u._id) = some u := by
  cases h : findById db (some u._id) with
  | none =>
    have h2 : db.find? (fun x => x._id == u._id) = none := h
    rw [List.find?_eq_none] at h2
    exact absurd (h2 u hu) (by simp)
  | some v =>
    have hv : v ∈ db := List.mem_of_find?_eq_some h
    rw [hid v hv u hu (findById_id db u._id v h)]

theorem findById_saveUser (db : List User) (u1 : User)
    (hmem : ∃ x ∈ db, x._id = u1._id) :
    findById (saveUser db u1) (some u1._id) = some u1 := by
  induction db with
  | nil => obtain ⟨x, hx, _⟩ := hmem; simp at hx
  | cons x xs ih =>
    by_cases hxid : x._id = u1._id
    · simp [findById, saveUser, List.find?_cons, hxid]
    · have hmem2 : ∃ y ∈ xs, y._id = u1._id := by
        obtain ⟨y, hy, hyid⟩ := hmem
        rcases List.mem_cons.mp hy with rfl | hy2
        · exact absurd hyid hxid
        · exact ⟨y, hy2, hyid⟩
      have ih2 := ih hmem2
      simpa [findById, saveUser, List.find?_cons, hxid] using ih2

/-- The document `GET /me` finds under the user's id in the collection `POST /login`
leaves: the login rewrites at most the three location fields. -/
theorem login_keeps_account (jwt : JwtLib) (bc : Bcrypt) (db : List User) (env0 : Env)
    (email password : String) (u : User) (hid : UniqueIds db)
    (hu : findOneByEmail db email = some u) :
    ∃ v : User, findById (login jwt bc db env0 email password).users (some u._id) = some v ∧
      v.email = u.email ∧ v.package = u.package ∧ v.courses = u.courses ∧
      v.firstName = u.firstName ∧ v.lastName = u.lastName ∧ v.role = u.role := by
  have hmem : u ∈ db := List.mem_of_find?_eq_some hu
  have hsame : findById db (some u._id) = some u := findById_of_unique db hid u hmem
  by_cases hpw : bc.compare password u.password = true
  · by_cases hr : (!truthy u.city || u.city == some "Unknown") = true
    · refine ⟨{ u with city := env0.location.city, state := env0.location.state,
                       country := env0.location.country }, ?_, rfl, rfl, rfl, rfl, rfl, rfl⟩
      have := findById_saveUser db
        { u with city := env0.location.city, state := env0.location.state,
                 country := env0.location.country } ⟨u, hmem, rfl⟩
      simpa [login, hu, hpw, hr] using this
    · refine ⟨u, ?_, rfl, rfl, rfl, rfl, rfl, rfl⟩
      simpa [login, hu, hpw, hr] using hsame
  · refine ⟨u, ?_, rfl, rfl, rfl, rfl, rfl, rfl⟩
    simpa [login, hu, hpw] using hsame

/-- C4: a stored end user logs in with the password that verifies against the stored
hash; `POST /login` answers 200 and returns a token (in the body and in the `token`
cookie) together with the user's id.  Presented to `GET /me` before its 2-day expiry,
in the cookie or as `Authorization: Bearer`, while a document with that id exists, the
token yields 200 on both transports, and the body carries, field by field, the email,
package, courses (an empty list when unset), first name, last name and role (`user`
when unset or empty) of the document stored under that id.  In the collection the
login itself leaves, ids being unique, these are the fields of the account that logged
in. -/
theorem login_me_roundtrip (jwt : JwtLib) (hj : jwt.Lawful) (bc : Bcrypt) (db : List User)
    (env0 : Env) (email password : String) (u : User)
    (hu : findOneByEmail db email = some u)
    (hpw : bc.compare password u.password = true) :
    ∃ tok : String,
      (login jwt bc db env0 email password).res.status = 200 ∧
      (login jwt bc db env0 email password).res.cookie = some ("token", tok) ∧
      (login jwt bc db env0 email password).res.body.token? = some tok ∧
      (login jwt bc db env0 email password).res.body.userId? = some u._id ∧
      (∀ (db1 : List User) (u1 : User) (env : Env) (req : Request),
        findById db1 (some u._id) = some u1 →
        env.now / 1000 < env0.now / 1000 + sessionTtl →
        carries req tok →
          me jwt db1 env req =
              ⟨200, .profile u1.email u1.package (u1.courses.getD []) u1.firstName
                u1.lastName (if truthy u1.role then u1.role.getD "" else "user"), none⟩ ∧
            u1._id = u._id) ∧
      (UniqueIds db → ∀ (env : Env) (req : Request),
        env.now / 1000 < env0.now / 1000 + sessionTtl →
        carries req tok →
          me jwt (login jwt bc db env0 email password).users env req =
            ⟨200, .profile u.email u.package (u.courses.getD []) u.firstName
              u.lastName (if truthy u.role then u.role.getD "" else "user"), none⟩) := by
  obtain ⟨h1, h2, h3, h4⟩ := login_success jwt bc db env0 email password u hu hpw
  refine ⟨_, h1, h2, h3, h4, ?_, ?_⟩
  · intro db1 u1 env req hfind hnow hreq
    exact ⟨me_session_token jwt hj u._id sessionTtl env0.now db1 u1 env req hfind hnow hreq,
      findById_id db1 u._id u1 hfind⟩
  · intro hid env req hnow hreq
    obtain ⟨v, hv, he, hp, hc, hf, hl, hr⟩ :=
      login_keeps_account jwt bc db env0 email password u hid hu
    rw [me_session_token jwt hj u._id sessionTtl env0.now _ v env req hv hnow hreq]
    simp only [profileOf, he, hp, hc, hf, hl, hr]

/-! ## Accounts persist -/

theorem saveUser_keeps_ids (db : List User) (u : User) :
    ∀ x ∈ db, ∃ y ∈ saveUser db u, y._id = x._id := by
  intro x hx
  by_cases h : x._id = u._id
  · exact ⟨u, List.mem_map.mpr ⟨x, hx, by simp [h]⟩, h.symm⟩
  · exact ⟨x, List.mem_map.mpr ⟨x, hx, by simp [h]⟩, rfl⟩

theorem step_users_cases (jwt : JwtLib) (bc : Bcrypt) (instructors : List Instructor)
    (db : List User) (env : Env) (op : Op) :
    (step jwt bc instructors db env op).users = db ∨
      (∃ u, (step jwt bc instructors db env op).users = saveUser db u) ∨
      (∃ u, (step jwt bc instructors db env op).users = insertUser db u) := by
  cases op with
  | signup firstName lastName email password role =>
    simp only [step, signup]
    split
    · exact Or.inl rfl
    · split
      · exact Or.inl rfl
      · exact Or.inr (Or.inr ⟨_, rfl⟩)
  | login email password =>
    simp only [step, login]
    split
    · exact Or.inl rfl
    · split
      · exact Or.inl rfl
      · dsimp only
        split
        · exact Or.inr (Or.inl ⟨_, rfl⟩)
        · exact Or.inl rfl
  | updateLocation req =>
    simp only [step, updateLocation]
    split
    · exact Or.inl rfl
    · split
      · exact Or.inl rfl
      · split
        · exact Or.inl rfl
        · split
          · exact Or.inl rfl
          · exact Or.inr (Or.inl ⟨_, rfl⟩)
  | instructorLogin email password => exact Or.inl rfl
  | forgotPassword email language =>
    simp only [step, forgotPassword]
    split
    · exact Or.inl rfl
    · split
      · exact Or.inl rfl
      · split
        · exact Or.inr (Or.inl ⟨_, rfl⟩)
        · exact Or.inr (Or.inl ⟨_, rfl⟩)
  | resetPassword token newPassword =>
    simp only [step, resetPassword]
    split
    · exact Or.inl rfl
    · split
      · exact Or.inl rfl
      · split
        · exact Or.inl rfl
        · exact Or.inr (Or.inl ⟨_, rfl⟩)
  | me req => exact Or.inl rfl

theorem step_keeps_ids (jwt : JwtLib) (bc : Bcrypt) (instructors : List Instructor)
    (db : List User) (env : Env) (op : Op) :
    ∀ x ∈ db, ∃ y ∈ (step jwt bc instructors db env op).users, y._id = x._id := by
  intro x hx
  rcases step_users_cases jwt bc instructors db env op with h | ⟨u, h⟩ | ⟨u, h⟩
  · rw [h]; exact ⟨x, hx, rfl⟩
  · rw [h]; exact saveUser_keeps_ids db u x hx
  · rw [h]; exact ⟨x, List.mem_append_left _ hx, rfl⟩

theorem run_keeps_ids (jwt : JwtLib) (bc : Bcrypt) (instructors : List Instructor)
    (ops : List (Env × Op)) :
    ∀ (db : List User), ∀ x ∈ db, ∃ y ∈ run jwt bc instructors db ops, y._id = x._id := by
  induction ops with
  | nil => intro db x hx; exact ⟨x, hx, rfl⟩
  | cons eo rest ih =>
    intro db x hx
    obtain ⟨env, op⟩ := eo
    obtain ⟨y, hy, hyx⟩ := step_keeps_ids jwt bc instructors db env op x hx
    obtain ⟨z, hz, hzy⟩ := ih _ y hy
    exact ⟨z, hz, hzy.trans hyx⟩

theorem findById_of_mem (db : List User) (x : User) (hx : x ∈ db) :
    ∃ u, findById db (some x._id) = some u := by
  cases h : findById db (some x._id) with
  | some u => exact ⟨u, rfl⟩
  | none =>
    have h2 : db.find? (fun u => u._id == x._id) = none := h
    rw [List.find?_eq_none] at h2
    exact absurd (h2 x hx) (by simp)

theorem findOneByEmail_mem (db : List User) (email : String) (u : User)
    (h : findOneByEmail db email = some u) : u ∈ db ∧ u.email = email := by
  refine ⟨List.mem_of_find?_eq_some h, ?_⟩
  have := List.find?_some h
  simpa using this

/-! ## Forgot password -/

theorem forgotPassword_found (jwt : JwtLib) (db : List User) (env0 : Env)
    (email : String) (language : Option String) (u : User)
    (he : email ≠ "") (hu : findOneByEmail db email = some u) :
    forgotPassword jwt db env0 (some email) language =
      ⟨⟨if env0.mailOk then 200 else 500,
          .message (if env0.mailOk then "If that email exists, a reset link has been sent."
            else "Error sending reset email."), none⟩,
        saveUser db
          { u with resetPasswordToken :=
                     some (jwt.sign (some u._id) none JWT_SECRET resetTtl env0.now),
                   resetPasswordExpires := some (env0.now + 3600000) },
        [⟨u.email, language.getD "en",
          jwt.sign (some u._id) none JWT_SECRET resetTtl env0.now⟩]⟩ := by
  have ht : truthy (some email) = true := (truthy_some_iff email).mpr he
  cases hm : env0.mailOk <;> simp [forgotPassword, ht, hu, hm]

/-- C8: for a non-empty email that matches no end user, `POST /forgot-password` answers
200 with the generic message, makes no call to the mail collaborator and leaves the
collection as it was; and a request for a registered email whose mail is sent gets the
same status and body. -/
theorem forgotPassword_unknown_email (jwt : JwtLib) (db : List User) (env : Env)
    (email : String) (language : Option String)
    (he : email ≠ "") (hu : findOneByEmail db email = none) :
    forgotPassword jwt db env (some email) language =
        ⟨⟨200, .message "If that email exists, a reset link has been sent.", none⟩, db, []⟩ ∧
      ∀ (db2 : List User) (env2 : Env) (email2 : String) (language2 : Option String)
        (u2 : User), email2 ≠ "" → findOneByEmail db2 email2 = some u2 →
        env2.mailOk = true →
          (forgotPassword jwt db2 env2 (some email2) language2).res =
            (forgotPassword jwt db env (some email) language).res := by
  have ht : truthy (some email) = true := (truthy_some_iff email).mpr he
  have h1 : forgotPassword jwt db env (some email) language =
      ⟨⟨200, .message "If that email exists, a reset link has been sent.", none⟩, db, []⟩ := by
    simp [forgotPassword, ht, hu]
  refine ⟨h1, ?_⟩
  intro db2 env2 email2 language2 u2 he2 hu2 hm
  rw [h1, forgotPassword_found jwt db2 env2 email2 language2 u2 he2 hu2]
  simp [hm]

/-- C10: the reset token mailed by `POST /forgot-password` for an end user is a valid
session for that user: whatever requests are served afterwards (among them a
`/reset-password` that consumes the token or a `/forgot-password` that supersedes it),
until the token's embedded 1-hour expiry `GET /me` answers 200 with the user's profile
and `PUT /update-location` answers 200 and rewrites the user's location, on both
transports. -/
theorem reset_token_is_session (jwt : JwtLib) (hj : jwt.Lawful) (bc : Bcrypt)
    (instructors : List Instructor) (db : List User) (env0 : Env) (email : String)
    (language : Option String) (u : User)
    (he : email ≠ "") (hu : findOneByEmail db email = some u) :
    ∃ tok : String,
      (forgotPassword jwt db env0 (some email) language).mails =
        [⟨u.email, language.getD "en", tok⟩] ∧
      ∀ (ops : List (Env × Op)) (env : Env) (req : Request),
        env.now / 1000 < env0.now / 1000 + resetTtl →
        carries req tok →
        ∃ u1 : User,
          findById
            (run jwt bc instructors (forgotPassword jwt db env0 (some email) language).users ops)
            (some u._id) = some u1 ∧
          me jwt
            (run jwt bc instructors (forgotPassword jwt db env0 (some email) language).users ops)
            env req = ⟨200, profileOf u1, none⟩ ∧
          updateLocation jwt
            (run jwt bc instructors (forgotPassword jwt db env0 (some email) language).users ops)
            env req =
            ⟨⟨200, .locationUpdated true "Location updated successfully" env.location, none⟩,
              saveUser
                (run jwt bc instructors
                  (forgotPassword jwt db env0 (some email) language).users ops)
                { u1 with city := env.location.city, state := env.location.state,
                          country := env.location.country }, []⟩ := by
  refine ⟨jwt.sign (some u._id) none JWT_SECRET resetTtl env0.now, ?_, ?_⟩
  · rw [forgotPassword_found jwt db env0 email language u he hu]
  · intro ops env req hnow hreq
    have hmem := (findOneByEmail_mem db email u hu).1
    obtain ⟨y, hy, hyu⟩ := saveUser_keeps_ids db
      { u with resetPasswordToken :=
                 some (jwt.sign (some u._id) none JWT_SECRET resetTtl env0.now),
               resetPasswordExpires := some (env0.now + 3600000) } u hmem
    rw [forgotPassword_found jwt db env0 email language u he hu]
    dsimp only
    obtain ⟨z, hz, hzy⟩ := run_keeps_ids jwt bc instructors ops _ y hy
    obtain ⟨u1, hu1⟩ := findById_of_mem _ z hz
    rw [hzy, hyu] at hu1
    refine ⟨u1, hu1, ?_, ?_⟩
    · exact me_session_token jwt hj u._id resetTtl env0.now _ u1 env req hu1 hnow hreq
    · have hx := extractToken_of_carries req _ (sign_ne_empty jwt hj _ _ _ _) hreq
      have h2 : ¬ env.now / 1000 ≥ env0.now / 1000 + resetTtl := by omega
      rw [updateLocation_of_token jwt _ env req _ hx (sign_ne_empty jwt hj _ _ _ _),
        verify_sign jwt hj]
      simp [h2, hu1]

/-! ## Reset password -/

theorem resetFilter_iff (id : Option Nat) (token : String) (now : Nat) (u : User) :
    resetFilter id token now u = true ↔
      some u._id = id ∧ u.resetPasswordToken = some token ∧
        ∃ e, u.resetPasswordExpires = some e ∧ now < e := by
  unfold resetFilter
  cases he : u.resetPasswordExpires with
  | none => simp
  | some e => simp [and_assoc]

theorem resetPassword_of_verify_none (jwt : JwtLib) (bc : Bcrypt) (db : List User) (env : Env)
    (token newPassword : String) (ht : token ≠ "") (hn : newPassword ≠ "")
    (hv : jwt.verify token JWT_SECRET env.now = none) :
    resetPassword jwt bc db env (some token) (some newPassword) =
      ⟨⟨400, .message "Invalid or expired token.", none⟩, db, []⟩ := by
  have ht1 : truthy (some token) = true := (truthy_some_iff token).mpr ht
  have hn1 : truthy (some newPassword) = true := (truthy_some_iff newPassword).mpr hn
  simp [resetPassword, ht1, hn1, hv]

theorem resetPassword_of_find_none (jwt : JwtLib) (bc : Bcrypt) (db : List User) (env : Env)
    (token newPassword : String) (decoded : Payload) (ht : token ≠ "") (hn : newPassword ≠ "")
    (hv : jwt.verify token JWT_SECRET env.now = some decoded)
    (hf : findOneReset db decoded.userId token env.now = none) :
    resetPassword jwt bc db env (some token) (some newPassword) =
      ⟨⟨400, .message "Invalid or expired token.", none⟩, db, []⟩ := by
  have ht1 : truthy (some token) = true := (truthy_some_iff token).mpr ht
  have hn1 : truthy (some newPassword) = true := (truthy_some_iff newPassword).mpr hn
  simp [resetPassword, ht1, hn1, hv, hf]

theorem resetPassword_of_find_some (jwt : JwtLib) (bc : Bcrypt) (db : List User) (env : Env)
    (token newPassword : String) (decoded : Payload) (user : User)
    (ht : token ≠ "") (hn : newPassword ≠ "")
    (hv : jwt.verify token JWT_SECRET env.now = some decoded)
    (hf : findOneReset db decoded.userId token env.now = some user) :
    resetPassword jwt bc db env (some token) (some newPassword) =
      ⟨⟨200, .message "Password has been reset successfully.", none⟩,
        saveUser db
          { user with password := bc.hash newPassword 10 env.salt,
                      resetPasswordToken := none,
                      resetPasswordExpires := none }, []⟩ := by
  have ht1 : truthy (some token) = true := (truthy_some_iff token).mpr ht
  have hn1 : truthy (some newPassword) = true := (truthy_some_iff newPassword).mpr hn
  simp [resetPassword, ht1, hn1, hv, hf]

/-- C2: for a non-empty token and a non-empty new password, `POST /reset-password`
answers 200 exactly when the token verifies (signature, structure and embedded expiry)
and some end-user document has the token's `userId` as id, this very token string as
`resetPasswordToken` and a `resetPasswordExpires` strictly greater than now; it then
replaces the password of such a document by the hash of the new password and clears
both reset fields.  In every other case it answers 400 `Invalid or expired token.` and
leaves the collection as it was. -/
theorem resetPassword_succeeds_iff (jwt : JwtLib) (bc : Bcrypt) (db : List User) (env : Env)
    (token newPassword : String) (ht : token ≠ "") (hn : newPassword ≠ "") :
    ((resetPassword jwt bc db env (some token) (some newPassword)).res.status = 200 ↔
      ∃ decoded, jwt.verify token JWT_SECRET env.now = some decoded ∧
        ∃ u ∈ db, some u._id = decoded.userId ∧ u.resetPasswordToken = some token ∧
          ∃ e, u.resetPasswordExpires = some e ∧ env.now < e) ∧
    ((resetPassword jwt bc db env (some token) (some newPassword)).res.status = 200 →
      ∃ decoded, jwt.verify token JWT_SECRET env.now = some decoded ∧
        ∃ u ∈ db, some u._id = decoded.userId ∧ u.resetPasswordToken = some token ∧
          (∃ e, u.resetPasswordExpires = some e ∧ env.now < e) ∧
          resetPassword jwt bc db env (some token) (some newPassword) =
            ⟨⟨200, .message "Password has been reset successfully.", none⟩,
              saveUser db
                { u with password := bc.hash newPassword 10 env.salt,
                         resetPasswordToken := none,
                         resetPasswordExpires := none }, []⟩) ∧
    ((resetPassword jwt bc db env (some token) (some newPassword)).res.status ≠ 200 →
      resetPassword jwt bc db env (some token) (some newPassword) =
        ⟨⟨400, .message "Invalid or expired token.", none⟩, db, []⟩) := by
  cases hv : jwt.verify token JWT_SECRET env.now with
  | none =>
    rw [resetPassword_of_verify_none jwt bc db env token newPassword ht hn hv]
    simp
  | some decoded =>
    cases hf : findOneReset db decoded.userId token env.now with
    | none =>
      rw [resetPassword_of_find_none jwt bc db env token newPassword decoded ht hn hv hf]
      have hnone : ∀ x ∈ db, ¬ (resetFilter decoded.userId token env.now x = true) := by
        have h2 : db.find? (resetFilter decoded.userId token env.now) = none := hf
        rw [List.find?_eq_none] at h2
        exact h2
      have h400 : ¬ ((400 : Nat) = 200) := by decide
      refine ⟨⟨fun h => absurd h h400, ?_⟩, fun h => absurd h h400, fun _ => rfl⟩
      rintro ⟨d, hd, u, hu, h1, h2, h3⟩
      have hdd : d = decoded := by simpa using hd.symm
      subst hdd
      exact absurd ((resetFilter_iff _ token env.now u).mpr ⟨h1, h2, h3⟩) (hnone u hu)
    | some user =>
      rw [resetPassword_of_find_some jwt bc db env token newPassword decoded user ht hn hv hf]
      have hmem : user ∈ db := List.mem_of_find?_eq_some hf
      have hp : resetFilter decoded.userId token env.now user = true := by
        have := List.find?_some hf
        simpa using this
      obtain ⟨h1, h2, h3⟩ := (resetFilter_iff _ token env.now user).mp hp
      refine ⟨⟨fun _ => ⟨decoded, rfl, user, hmem, h1, h2, h3⟩, fun _ => rfl⟩, ?_, ?_⟩
      · intro _
        exact ⟨decoded, rfl, user, hmem, h1, h2, h3, rfl⟩
      · intro h
        exact absurd rfl h

theorem findOneByEmail_saveUser (db : List User) (email : String) (u u1 : User)
    (h : findOneByEmail db email = some u) (hid : u1._id = u._id)
    (hem : u1.email = email) : findOneByEmail (saveUser db u1) email = some u1 := by
  induction db with
  | nil => simp [findOneByEmail] at h
  | cons x xs ih =>
    by_cases hx : x.email = email
    · have hxu : x = u := by simpa [findOneByEmail, List.find?_cons, hx] using h
      have hxid : x._id = u1._id := by rw [hxu, hid]
      simp [findOneByEmail, saveUser, List.find?_cons, hxid, hem]
    · have hrest : findOneByEmail xs email = some u := by
        simpa [findOneByEmail, List.find?_cons, hx] using h
      have ih2 := ih hrest
      by_cases hxid : x._id = u1._id
      · simp [findOneByEmail, saveUser, List.find?_cons, hxid, hem]
      · simpa [findOneByEmail, saveUser, List.find?_cons, hxid, hx] using ih2

theorem findOneReset_saveUser (db : List User) (token : String) (now : Nat) (u1 : User)
    (hmem : ∃ x ∈ db, x._id = u1._id)
    (hp : resetFilter (some u1._id) token now u1 = true) :
    findOneReset (saveUser db u1) (some u1._id) token now = some u1 := by
  induction db with
  | nil => obtain ⟨x, hx, _⟩ := hmem; simp at hx
  | cons x xs ih =>
    by_cases hxid : x._id = u1._id
    · simp [findOneReset, saveUser, List.find?_cons, hxid, hp]
    · have hmem2 : ∃ y ∈ xs, y._id = u1._id := by
        obtain ⟨y, hy, hyid⟩ := hmem
        rcases List.mem_cons.mp hy with rfl | hy2
        · exact absurd hyid hxid
        · exact ⟨y, hy2, hyid⟩
      have hxf : resetFilter (some u1._id) token now x = false := by
        simp [resetFilter, hxid]
      have ih2 := ih hmem2
      simpa [findOneReset, saveUser, List.find?_cons, hxid, hxf] using ih2

theorem findOneByEmail_of_unique (db : List User) (hem : UniqueEmails db) (u : User)
    (hu : u ∈ db) : findOneByEmail db u.email = some u := by
  cases h : findOneByEmail db u.email with
  | none =>
    have h2 : db.find? (fun x => x.email == u.email) = none := h
    rw [List.find?_eq_none] at h2
    exact absurd (h2 u hu) (by simp)
  | some v =>
    obtain ⟨hv, hve⟩ := findOneByEmail_mem db u.email v h
    rw [hem v hv u hu hve]

theorem findOneReset_of_unique (db : List User) (hid : UniqueIds db) (u : User)
    (hu : u ∈ db) (token : String) (now : Nat)
    (hp : resetFilter (some u._id) token now u = true) :
    findOneReset db (some u._id) token now = some u := by
  cases h : findOneReset db (some u._id) token now with
  | none =>
    have h2 : db.find? (resetFilter (some u._id) token now) = none := h
    rw [List.find?_eq_none] at h2
    exact absurd hp (h2 u hu)
  | some v =>
    have hv : v ∈ db := List.mem_of_find?_eq_some h
    have hpv : resetFilter (some u._id) token now v = true := by
      have := List.find?_some h
      simpa using this
    have hvid : v._id = u._id := by
      have := ((resetFilter_iff _ token now v).mp hpv).1
      simpa using this
    rw [hid v hv u hu hvid]

theorem login_wrong_password (jwt : JwtLib) (bc : Bcrypt) (db : List User) (env : Env)
    (email password : String) (u : User)
    (hu : findOneByEmail db email = some u)
    (hpw : bc.compare password u.password = false) :
    login jwt bc db env email password =
      ⟨⟨400, .message "Invalid credentials", none⟩, db, []⟩ := by
  simp [login, hu, hpw]

theorem login_users (jwt : JwtLib) (bc : Bcrypt) (db : List User) (env : Env)
    (email password : String) (u : User)
    (hu : findOneByEmail db email = some u) :
    ∃ v, v.password = u.password ∧
      findOneByEmail (login jwt bc db env email password).users email = some v := by
  have hue := (findOneByEmail_mem db email u hu).2
  by_cases hpw : bc.compare password u.password = true
  · by_cases hr : (!truthy u.city || u.city == some "Unknown") = true
    · refine ⟨{ u with city := env.location.city, state := env.location.state,
                       country := env.location.country }, rfl, ?_⟩
      have := findOneByEmail_saveUser db email u
        { u with city := env.location.city, state := env.location.state,
                 country := env.location.country } hu rfl hue
      simpa [login, hu, hpw, hr] using this
    · refine ⟨u, rfl, ?_⟩
      simp [login, hu, hpw, hr]
  · refine ⟨u, rfl, ?_⟩
    simp [login, hu, hpw]

/-- C7: an end user `u` holds the outstanding reset token `t` (stored on the document,
stored expiry in the future, token verifying with `u` as subject).  Then
`POST /reset-password` with `t` and a new password `n` answers 200, and afterwards
`POST /login` with the user's email and `n` answers 200 while `POST /login` with the
email and any plaintext `o` other than `n`, the old password among them, answers 400
`Invalid credentials`, also when it follows the successful login.  The hasher is
assumed to verify a plaintext against its own hash and against no other's. -/
theorem reset_then_login (jwt : JwtLib) (bc : Bcrypt) (hb : bc.Lawful) (db : List User)
    (hid : UniqueIds db) (hem : UniqueEmails db) (u : User) (hu : u ∈ db) (env : Env)
    (t n o : String) (decoded : Payload) (e : Nat)
    (ht : t ≠ "") (hn : n ≠ "") (hno : n ≠ o)
    (hv : jwt.verify t JWT_SECRET env.now = some decoded)
    (hsub : decoded.userId = some u._id)
    (htok : u.resetPasswordToken = some t)
    (hexp : u.resetPasswordExpires = some e) (hlt : env.now < e) :
    (resetPassword jwt bc db env (some t) (some n)).res.status = 200 ∧
    (∀ env1 : Env,
      (login jwt bc (resetPassword jwt bc db env (some t) (some n)).users env1 u.email n
        ).res.status = 200) ∧
    (∀ env2 : Env,
      (login jwt bc (resetPassword jwt bc db env (some t) (some n)).users env2 u.email o
        ).res = ⟨400, .message "Invalid credentials", none⟩) ∧
    (∀ env1 env2 : Env,
      (login jwt bc
        (login jwt bc (resetPassword jwt bc db env (some t) (some n)).users env1 u.email n
          ).users env2 u.email o).res = ⟨400, .message "Invalid credentials", none⟩) := by
  have hp : resetFilter (some u._id) t env.now u = true :=
    (resetFilter_iff _ t env.now u).mpr ⟨rfl, htok, e, hexp, hlt⟩
  have hf : findOneReset db decoded.userId t env.now = some u := by
    rw [hsub]; exact findOneReset_of_unique db hid u hu t env.now hp
  have hout := resetPassword_of_find_some jwt bc db env t n decoded u ht hn hv hf
  have hmail := findOneByEmail_of_unique db hem u hu
  have hfind := findOneByEmail_saveUser db u.email u
    { u with password := bc.hash n 10 env.salt, resetPasswordToken := none,
             resetPasswordExpires := none } hmail rfl rfl
  have hgood : bc.compare n (bc.hash n 10 env.salt) = true := by
    rw [hb n n 10 env.salt]; simp
  have hbad : bc.compare o (bc.hash n 10 env.salt) = false := by
    rw [hb o n 10 env.salt]; simp [Ne.symm hno]
  rw [hout]
  refine ⟨rfl, ?_, ?_, ?_⟩
  · intro env1
    exact (login_success jwt bc _ env1 u.email n _ hfind hgood).1
  · intro env2
    rw [login_wrong_password jwt bc _ env2 u.email o _ hfind hbad]
  · intro env1 env2
    obtain ⟨v, hvp, hvf⟩ := login_users jwt bc _ env1 u.email n _ hfind
    have hbad2 : bc.compare o v.password = false := by rw [hvp]; exact hbad
    rw [login_wrong_password jwt bc _ env2 u.email o v hvf hbad2]

/-! ## Single use of reset tokens -/

theorem sign_same_second (jwt : JwtLib) (uid iid : Option Nat) (secret : String)
    (ttl now0 now2 : Nat) (h : now2 / 1000 = now0 / 1000) :
    jwt.sign uid iid secret ttl now2 = jwt.sign uid iid secret ttl now0 := by
  simp [JwtLib.sign, h]

/-- Two reset tokens are the same string only when they were signed for the same user
in the same clock second. -/
theorem sign_injective (jwt : JwtLib) (hj : jwt.Lawful) (i j : Option Nat)
    (ttl now0 now2 : Nat)
    (h : jwt.sign i none JWT_SECRET ttl now2 = jwt.sign j none JWT_SECRET ttl now0) :
    i = j ∧ now2 / 1000 = now0 / 1000 := by
  have h1 := (hj JWT_SECRET ⟨i, none, now2 / 1000, some (now2 / 1000 + ttl)⟩).1
  have h2 := (hj JWT_SECRET ⟨j, none, now0 / 1000, some (now0 / 1000 + ttl)⟩).1
  unfold JwtLib.sign at h
  rw [h, h2] at h1
  have h3 := Option.some.inj h1
  have h4 := congrArg Payload.userId h3
  have h5 := congrArg Payload.iat h3
  exact ⟨h4.symm, h5.symm⟩

/-- What `/forgot-password` followed by `/reset-password` with the mailed token leaves:
the password replaced and both reset fields cleared. -/
theorem forgot_then_reset (jwt : JwtLib) (hj : jwt.Lawful) (bc : Bcrypt) (db : List User)
    (email : String) (language : Option String) (u : User) (env0 env1 : Env) (n : String)
    (he : email ≠ "") (hn : n ≠ "") (hu : findOneByEmail db email = some u)
    (h1 : env1.now / 1000 < env0.now / 1000 + resetTtl)
    (h2 : env1.now < env0.now + 3600000) :
    ∃ db2 : List User,
      resetPassword jwt bc (forgotPassword jwt db env0 (some email) language).users env1
          (some (jwt.sign (some u._id) none JWT_SECRET resetTtl env0.now)) (some n) =
        ⟨⟨200, .message "Password has been reset successfully.", none⟩, db2, []⟩ ∧
      findOneByEmail db2 email =
        some { u with password := bc.hash n 10 env1.salt, resetPasswordToken := none,
                      resetPasswordExpires := none } := by
  obtain ⟨hmem, hue⟩ := findOneByEmail_mem db email u hu
  have hne := sign_ne_empty jwt hj (some u._id) none resetTtl env0.now
  have hnot : ¬ env1.now / 1000 ≥ env0.now / 1000 + resetTtl := by omega
  have hv : jwt.verify (jwt.sign (some u._id) none JWT_SECRET resetTtl env0.now) JWT_SECRET
      env1.now = some ⟨some u._id, none, env0.now / 1000, some (env0.now / 1000 + resetTtl)⟩ := by
    rw [verify_sign jwt hj]; simp [hnot]
  obtain ⟨user1, hdef⟩ : ∃ x : User, x =
      { u with resetPasswordToken :=
                 some (jwt.sign (some u._id) none JWT_SECRET resetTtl env0.now),
               resetPasswordExpires := some (env0.now + 3600000) } := ⟨_, rfl⟩
  have hid1 : user1._id = u._id := by rw [hdef]
  have hem1 : user1.email = email := by rw [hdef]; exact hue
  have hp : resetFilter (some user1._id)
      (jwt.sign (some u._id) none JWT_SECRET resetTtl env0.now) env1.now user1 = true := by
    rw [resetFilter_iff]
    exact ⟨rfl, by rw [hdef], env0.now + 3600000, by rw [hdef], h2⟩
  have hf := findOneReset_saveUser db _ env1.now user1 ⟨u, hmem, hid1.symm⟩ hp
  rw [hid1] at hf
  have hs1 : (forgotPassword jwt db env0 (some email) language).users = saveUser db user1 := by
    rw [forgotPassword_found jwt db env0 email language u he hu, hdef]
  rw [hs1]
  have hout := resetPassword_of_find_some jwt bc (saveUser db user1) env1 _ n _ user1 hne hn
    hv hf
  refine ⟨_, hout, ?_⟩
  have hfe1 := findOneByEmail_saveUser db email u user1 hu hid1 hem1
  have hfe2 := findOneByEmail_saveUser (saveUser db user1) email user1
    { user1 with password := bc.hash n 10 env1.salt, resetPasswordToken := none,
                 resetPasswordExpires := none } hfe1 rfl hem1
  rw [hfe2, hdef]

/-- Re-issue of a consumed token: a reset token is mailed and consumed by a successful
`/reset-password`; a second `/forgot-password` for the same account arrives in the clock
second in which the token was issued.  It signs the same claims, so the stored token is
again the consumed string, and a second `/reset-password` with that string answers 200
and replaces the password once more. -/
theorem consumed_reset_token_reissued (jwt : JwtLib) (hj : jwt.Lawful) (bc : Bcrypt)
    (db : List User) (email : String) (language language2 : Option String) (u : User)
    (env0 env1 env2 env3 : Env) (n1 n2 : String)
    (he : email ≠ "") (hn1 : n1 ≠ "") (hn2 : n2 ≠ "")
    (hu : findOneByEmail db email = some u)
    (h1 : env1.now / 1000 < env0.now / 1000 + resetTtl)
    (h1ms : env1.now < env0.now + 3600000)
    (h2 : env2.now / 1000 = env0.now / 1000)
    (h3 : env3.now / 1000 < env2.now / 1000 + resetTtl)
    (h3ms : env3.now < env2.now + 3600000) :
    ∃ (tok : String) (db2 db4 : List User) (v : User),
      (forgotPassword jwt db env0 (some email) language).mails =
        [⟨u.email, language.getD "en", tok⟩] ∧
      resetPassword jwt bc (forgotPassword jwt db env0 (some email) language).users env1
          (some tok) (some n1) =
        ⟨⟨200, .message "Password has been reset successfully.", none⟩, db2, []⟩ ∧
      (forgotPassword jwt db2 env2 (some email) language2).mails =
        [⟨u.email, language2.getD "en", tok⟩] ∧
      resetPassword jwt bc (forgotPassword jwt db2 env2 (some email) language2).users env3
          (some tok) (some n2) =
        ⟨⟨200, .message "Password has been reset successfully.", none⟩, db4, []⟩ ∧
      findOneByEmail db4 email = some v ∧ v.password = bc.hash n2 10 env3.salt := by
  obtain ⟨db2, hr1, hf1⟩ :=
    forgot_then_reset jwt hj bc db email language u env0 env1 n1 he hn1 hu h1 h1ms
  obtain ⟨db4, hr2, hf2⟩ :=
    forgot_then_reset jwt hj bc db2 email language2 _ env2 env3 n2 he hn2 hf1 h3 h3ms
  have hsame := sign_same_second jwt (some u._id) none JWT_SECRET resetTtl env0.now env2.now h2
  refine ⟨jwt.sign (some u._id) none JWT_SECRET resetTtl env0.now, db2, db4, _, ?_, hr1, ?_,
    ?_, hf2, rfl⟩
  · rw [forgotPassword_found jwt db env0 email language u he hu]
  · rw [forgotPassword_found jwt db2 env2 email language2 _ he hf1]
    simp [hsame]
  · rw [← hsame]
    exact hr2

/-! ## Module load -/

theorem getGlobal_setGlobal_same (g : Globals) (key : String) (value : GlobalValue) :
    getGlobal (setGlobal g key value) key = some value := by
  simp [getGlobal, setGlobal]

theorem getGlobal_setGlobal_other (g : Globals) (key other : String) (value : GlobalValue)
    (h : key ≠ other) :
    getGlobal (setGlobal g key value) other = getGlobal g other := by
  have hfun : (fun a : String × GlobalValue =>
      decide ((a.1 != key) = true ∧ (a.1 == other) = true)) =
      (fun kv : String × GlobalValue => kv.1 == other) := by
    funext kv
    by_cases hk : kv.1 = other
    · have : kv.1 ≠ key := fun e => h (e.symm.trans hk)
      simp [hk]
      exact fun e => h e.symm
    · simp [hk]
  simp only [getGlobal, setGlobal, List.find?_cons]
  have hb : ((key, value).1 == other) = false := by simpa using h
  rw [hb, List.find?_filter, hfun]

/-- C9: loading the module writes to the global object: whatever the globals were, after
the statements that follow `module.exports = router` the properties `_V`, `r` and `m`
hold the string `A4`, the `require` function and the module object; started from an
empty global object, the globals are no longer empty. -/
theorem moduleTrailer_writes_globals :
    (∀ g : Globals,
      getGlobal (moduleTrailer g) "_V" = some (.str "A4") ∧
      getGlobal (moduleTrailer g) "r" = some .requireFunction ∧
      getGlobal (moduleTrailer g) "m" = some .moduleObject) ∧
    moduleTrailer [] ≠ [] := by
  refine ⟨fun g => ⟨?_, ?_, ?_⟩, by decide⟩
  · unfold moduleTrailer
    rw [getGlobal_setGlobal_other _ "m" "_V" _ (by decide),
      getGlobal_setGlobal_other _ "r" "_V" _ (by decide), getGlobal_setGlobal_same]
  · unfold moduleTrailer
    rw [getGlobal_setGlobal_other _ "m" "r" _ (by decide), getGlobal_setGlobal_same]
  · unfold moduleTrailer
    rw [getGlobal_setGlobal_same]

/-! ## The theorems at concrete requests -/

theorem resetPassword_succeeds_iff_witness :
    (resetPassword demoJwt demoBcrypt [alicePending] (envAt 2000) (some aliceResetToken)
      (some "secret2")).res.status = 200 :=
  (resetPassword_succeeds_iff demoJwt demoBcrypt [alicePending] (envAt 2000) aliceResetToken
    "secret2" (by decide) (by decide)).1.mpr
    ⟨⟨some 1, none, 1, some 3601⟩, by decide, alicePending, by simp, by decide, by decide,
      3601000, by decide, by decide⟩

theorem forgotPassword_unknown_email_witness :
    forgotPassword demoJwt [alice] (envAt 1000) (some "nobody@x.com") none =
      ⟨⟨200, .message "If that email exists, a reset link has been sent.", none⟩, [alice], []⟩ :=
  (forgotPassword_unknown_email demoJwt [alice] (envAt 1000) "nobody@x.com" none
    (by decide) (by decide)).1

theorem reset_then_login_witness :
    (resetPassword demoJwt demoBcrypt [alicePending] (envAt 2000) (some aliceResetToken)
        (some "secret2")).res.status = 200 ∧
      (login demoJwt demoBcrypt
        (resetPassword demoJwt demoBcrypt [alicePending] (envAt 2000) (some aliceResetToken)
          (some "secret2")).users (envAt 3000) "a@x.com" "secret2").res.status = 200 ∧
      (login demoJwt demoBcrypt
        (resetPassword demoJwt demoBcrypt [alicePending] (envAt 2000) (some aliceResetToken)
          (some "secret2")).users (envAt 4000) "a@x.com" "secret1").res =
        ⟨400, .message "Invalid credentials", none⟩ := by
  have h := reset_then_login demoJwt demoBcrypt demoBcrypt_lawful [alicePending]
    (by intro x hx y hy _; simp at hx hy; rw [hx, hy])
    (by intro x hx y hy _; simp at hx hy; rw [hx, hy])
    alicePending (by simp) (envAt 2000) aliceResetToken "secret2" "secret1"
    ⟨some 1, none, 1, some 3601⟩ 3601000 (by decide) (by decide) (by decide) (by decide)
    rfl rfl rfl (by decide)
  exact ⟨h.1, h.2.1 (envAt 3000), h.2.2.1 (envAt 4000)⟩

theorem login_me_roundtrip_witness :
    me demoJwt [alice] (envAt 5000)
        ⟨none, some ("Bearer " ++ demoJwt.sign (some 1) none JWT_SECRET sessionTtl 1000)⟩ =
        ⟨200, .profile "a@x.com" none [] "Alice" "Archer" "user", none⟩ ∧
      me demoJwt (login demoJwt demoBcrypt [alice] (envAt 1000) "a@x.com" "secret1").users
        (envAt 5000)
        ⟨some (demoJwt.sign (some 1) none JWT_SECRET sessionTtl 1000), none⟩ =
        ⟨200, .profile "a@x.com" none [] "Alice" "Archer" "user", none⟩ := by
  obtain ⟨tok, _, hc, _, _, h, hown⟩ := login_me_roundtrip demoJwt demoJwt_lawful demoBcrypt
    [alice] (envAt 1000) "a@x.com" "secret1" alice (by decide) (by decide)
  have hc0 : (login demoJwt demoBcrypt [alice] (envAt 1000) "a@x.com" "secret1").res.cookie =
      some ("token", demoJwt.sign (some 1) none JWT_SECRET sessionTtl 1000) := by decide
  rw [hc0] at hc
  have htok : demoJwt.sign (some 1) none JWT_SECRET sessionTtl 1000 = tok := by
    simpa using hc
  subst htok
  have hids : UniqueIds [alice] := by
    intro x hx y hy _
    simp at hx hy
    rw [hx, hy]
  exact ⟨(h [alice] alice (envAt 5000)
      ⟨none, some ("Bearer " ++ demoJwt.sign (some 1) none JWT_SECRET sessionTtl 1000)⟩
      (by decide) (by decide) (Or.inr ⟨rfl, rfl⟩)).1,
    hown hids (envAt 5000)
      ⟨some (demoJwt.sign (some 1) none JWT_SECRET sessionTtl 1000), none⟩
      (by decide) (Or.inl rfl)⟩

theorem reset_token_is_session_witness :
    (me demoJwt
      (run demoJwt demoBcrypt []
        (forgotPassword demoJwt [alice] (envAt 1000) (some "a@x.com") none).users
        [(envAt 2000, .resetPassword (some aliceResetToken) (some "secret2")),
         (envAt 3000, .forgotPassword (some "a@x.com") none)])
      (envAt 4000) ⟨some aliceResetToken, none⟩).status = 200 := by
  obtain ⟨tok, hm, h⟩ := reset_token_is_session demoJwt demoJwt_lawful demoBcrypt [] [alice]
    (envAt 1000) "a@x.com" none alice (by decide) (by decide)
  have hm0 : (forgotPassword demoJwt [alice] (envAt 1000) (some "a@x.com") none).mails =
      [⟨"a@x.com", "en", aliceResetToken⟩] := by decide
  rw [hm0] at hm
  have htok : aliceResetToken = tok := by
    have := hm
    simp at this
    exact this.2
  subst htok
  obtain ⟨u1, _, hme, _⟩ := h
    [(envAt 2000, .resetPassword (some aliceResetToken) (some "secret2")),
     (envAt 3000, .forgotPassword (some "a@x.com") none)]
    (envAt 4000) ⟨some aliceResetToken, none⟩ (by decide) (Or.inl rfl)
  rw [hme]

theorem consumed_reset_token_reissued_witness :
    (resetPassword demoJwt demoBcrypt
      (forgotPassword demoJwt
        (resetPassword demoJwt demoBcrypt
          (forgotPassword demoJwt [alice] (envAt 1000) (some "a@x.com") none).users
          (envAt 1200) (some aliceResetToken) (some "secret2")).users
        (envAt 1500) (some "a@x.com") none).users
      (envAt 1800) (some aliceResetToken) (some "secret3")).res.status = 200 := by
  obtain ⟨tok, db2, db4, v, hm, hr1, _, hr2, _, _⟩ :=
    consumed_reset_token_reissued demoJwt demoJwt_lawful demoBcrypt [alice] "a@x.com" none none
      alice (envAt 1000) (envAt 1200) (envAt 1500) (envAt 1800) "secret2" "secret3"
      (by decide) (by decide) (by decide) (by decide) (by decide) (by decide) (by decide)
      (by decide) (by decide)
  have hm0 : (forgotPassword demoJwt [alice] (envAt 1000) (some "a@x.com") none).mails =
      [⟨"a@x.com", "en", aliceResetToken⟩] := by decide
  rw [hm0] at hm
  have htok : aliceResetToken = tok := by
    have := hm
    simp at this
    exact this.2
  subst htok
  have hdb2 := congrArg Outcome.users hr1
  simp only at hdb2
  rw [hdb2, hr2]

/-! ## A consumed token stays consumed until it is signed again -/

theorem mem_saveUser (db : List User) (u y : User) (hy : y ∈ saveUser db u) :
    y = u ∨ (y ∈ db ∧ y._id ≠ u._id) := by
  obtain ⟨x, hx, hxy⟩ := List.mem_map.mp hy
  by_cases h : x._id = u._id
  · left; rw [← hxy]; simp [h]
  · right
    have hxy2 : x = y := by simpa [h] using hxy
    rw [← hxy2]
    exact ⟨hx, h⟩

theorem step_token_cases (jwt : JwtLib) (bc : Bcrypt) (instructors : List Instructor)
    (db : List User) (env : Env) (op : Op) :
    (step jwt bc instructors db env op).users = db ∨
      (∃ u, (step jwt bc instructors db env op).users = saveUser db u ∧
        (u.resetPasswordToken = none ∨
          (∃ x ∈ db, x._id = u._id ∧ x.resetPasswordToken = u.resetPasswordToken) ∨
          (∃ m ∈ (step jwt bc instructors db env op).mails,
            u.resetPasswordToken = some m.resetToken))) ∨
      (∃ u, (step jwt bc instructors db env op).users = insertUser db u ∧
        u.resetPasswordToken = none) := by
  cases op with
  | signup firstName lastName email password role =>
    simp only [step, signup]
    split
    · exact Or.inl rfl
    · split
      · exact Or.inl rfl
      · exact Or.inr (Or.inr ⟨_, rfl, rfl⟩)
  | login email password =>
    simp only [step, login]
    cases hfe : findOneByEmail db email with
    | none => exact Or.inl rfl
    | some user =>
      have hmem := (findOneByEmail_mem db email user hfe).1
      dsimp only
      split
      · exact Or.inl rfl
      · dsimp only
        split
        · exact Or.inr (Or.inl ⟨_, rfl, Or.inr (Or.inl ⟨user, hmem, rfl, rfl⟩)⟩)
        · exact Or.inl rfl
  | updateLocation req =>
    simp only [step, updateLocation]
    split
    · exact Or.inl rfl
    · split
      · exact Or.inl rfl
      · split
        · exact Or.inl rfl
        · rename_i decoded _
          cases hfi : findById db decoded.userId with
          | none => exact Or.inl rfl
          | some user =>
            have hmem : user ∈ db := by
              cases hid : decoded.userId with
              | none => rw [hid] at hfi; simp [findById] at hfi
              | some i => rw [hid] at hfi; exact List.mem_of_find?_eq_some hfi
            exact Or.inr (Or.inl ⟨_, rfl, Or.inr (Or.inl ⟨user, hmem, rfl, rfl⟩)⟩)
  | instructorLogin email password => exact Or.inl rfl
  | forgotPassword email language =>
    simp only [step, forgotPassword]
    split
    · exact Or.inl rfl
    · split
      · exact Or.inl rfl
      · split
        · exact Or.inr (Or.inl ⟨_, rfl, Or.inr (Or.inr ⟨_, List.mem_singleton.mpr rfl, rfl⟩)⟩)
        · exact Or.inr (Or.inl ⟨_, rfl, Or.inr (Or.inr ⟨_, List.mem_singleton.mpr rfl, rfl⟩)⟩)
  | resetPassword token newPassword =>
    simp only [step, resetPassword]
    split
    · exact Or.inl rfl
    · split
      · exact Or.inl rfl
      · split
        · exact Or.inl rfl
        · exact Or.inr (Or.inl ⟨_, rfl, Or.inl rfl⟩)
  | me req => exact Or.inl rfl

theorem step_keeps_tokenCleared (jwt : JwtLib) (bc : Bcrypt) (instructors : List Instructor)
    (p : Payload) (t : String) (db : List User) (env : Env) (op : Op)
    (hinv : tokenCleared p t db)
    (hno : ∀ m ∈ (step jwt bc instructors db env op).mails, m.resetToken ≠ t) :
    tokenCleared p t (step jwt bc instructors db env op).users := by
  rcases step_token_cases jwt bc instructors db env op with h | ⟨u, h, hq⟩ | ⟨u, h, hq⟩
  · rw [h]; exact hinv
  · rw [h]
    intro y hy hyid
    rcases mem_saveUser db u y hy with rfl | hy2
    · rcases hq with hq | ⟨x, hx, hxid, hxt⟩ | ⟨m, hm, hmt⟩
      · rw [hq]; simp
      · rw [← hxt]; exact hinv x hx (by rw [hxid]; exact hyid)
      · rw [hmt]
        intro e
        exact hno m hm (by simpa using e)
    · exact hinv y hy2.1 hyid
  · rw [h]
    intro y hy hyid
    rcases List.mem_append.mp hy with hy2 | hy2
    · exact hinv y hy2 hyid
    · have : y = u := by simpa using hy2
      rw [this, hq]; simp

theorem run_keeps_tokenCleared (jwt : JwtLib) (bc : Bcrypt) (instructors : List Instructor)
    (p : Payload) (t : String) (ops : List (Env × Op)) :
    ∀ db : List User, tokenCleared p t db →
      (∀ m ∈ mailsOf jwt bc instructors db ops, m.resetToken ≠ t) →
      tokenCleared p t (run jwt bc instructors db ops) := by
  induction ops with
  | nil => intro db hinv _; exact hinv
  | cons eo rest ih =>
    intro db hinv hno
    obtain ⟨env, op⟩ := eo
    have h1 : ∀ m ∈ (step jwt bc instructors db env op).mails, m.resetToken ≠ t :=
      fun m hm => hno m (List.mem_append_left _ hm)
    have h2 : ∀ m ∈ mailsOf jwt bc instructors (step jwt bc instructors db env op).users rest,
        m.resetToken ≠ t := fun m hm => hno m (List.mem_append_right _ hm)
    exact ih _ (step_keeps_tokenCleared jwt bc instructors p t db env op hinv h1) h2

theorem verify_decode (jwt : JwtLib) (t : String) (now : Nat) (decoded : Payload)
    (h : jwt.verify t JWT_SECRET now = some decoded) :
    jwt.decode JWT_SECRET t = some decoded := by
  unfold JwtLib.verify at h
  cases hd : jwt.decode JWT_SECRET t with
  | none => rw [hd] at h; simp at h
  | some p =>
    rw [hd] at h
    cases he : p.exp with
    | none => simp [he] at h; rw [h]
    | some e =>
      simp only [he] at h
      split at h
      · simp at h
      · simp at h; rw [h]

theorem resetPassword_rejected (jwt : JwtLib) (bc : Bcrypt) (p : Payload) (t : String)
    (db : List User) (env : Env) (n : Option String) (ht : t ≠ "")
    (hdec : jwt.decode JWT_SECRET t = some p) (hinv : tokenCleared p t db) :
    (resetPassword jwt bc db env (some t) n).res.status = 400 ∧
      (resetPassword jwt bc db env (some t) n).users = db ∧
      (truthy n = true →
        (resetPassword jwt bc db env (some t) n).res =
          ⟨400, .message "Invalid or expired token.", none⟩) := by
  have ht1 : truthy (some t) = true := (truthy_some_iff t).mpr ht
  by_cases hn : truthy n = true
  · have hout : resetPassword jwt bc db env (some t) n =
        ⟨⟨400, .message "Invalid or expired token.", none⟩, db, []⟩ := by
      cases hv : jwt.verify t JWT_SECRET env.now with
      | none => simp [resetPassword, ht1, hn, hv]
      | some decoded =>
        have hd : decoded = p := by
          have := verify_decode jwt t env.now decoded hv
          rw [hdec] at this
          simpa using this.symm
        subst hd
        have hf : findOneReset db decoded.userId t env.now = none := by
          show db.find? (resetFilter decoded.userId t env.now) = none
          rw [List.find?_eq_none]
          intro x hx hp
          obtain ⟨h1, h2, _⟩ := (resetFilter_iff _ t env.now x).mp hp
          exact hinv x hx h1 h2
        simp [resetPassword, ht1, hn, hv, hf]
    rw [hout]
    exact ⟨rfl, rfl, fun _ => rfl⟩
  · have hout : resetPassword jwt bc db env (some t) n =
        ⟨⟨400, .message "Token and new password are required.", none⟩, db, []⟩ := by
      simp [resetPassword, ht1, hn]
    rw [hout]
    exact ⟨rfl, rfl, fun h => absurd h hn⟩

theorem resetPassword_ok_inv (jwt : JwtLib) (bc : Bcrypt) (db : List User) (env : Env)
    (t n : String)
    (hok : (resetPassword jwt bc db env (some t) (some n)).res.status = 200) :
    t ≠ "" ∧ ∃ p, jwt.decode JWT_SECRET t = some p ∧
      tokenCleared p t (resetPassword jwt bc db env (some t) (some n)).users := by
  have h400 : ¬ ((400 : Nat) = 200) := by decide
  by_cases ht : t = ""
  · subst ht
    simp [resetPassword, truthy] at hok
  by_cases hn : n = ""
  · subst hn
    simp [resetPassword, truthy] at hok
  refine ⟨ht, ?_⟩
  cases hv : jwt.verify t JWT_SECRET env.now with
  | none =>
    rw [resetPassword_of_verify_none jwt bc db env t n ht hn hv] at hok
    exact absurd hok h400
  | some decoded =>
    cases hf : findOneReset db decoded.userId t env.now with
    | none =>
      rw [resetPassword_of_find_none jwt bc db env t n decoded ht hn hv hf] at hok
      exact absurd hok h400
    | some user =>
      refine ⟨decoded, verify_decode jwt t env.now decoded hv, ?_⟩
      rw [resetPassword_of_find_some jwt bc db env t n decoded user ht hn hv hf]
      have hp : resetFilter decoded.userId t env.now user = true := by
        have := List.find?_some hf
        simpa using this
      have huid := ((resetFilter_iff _ t env.now user).mp hp).1
      intro y hy hyid
      rcases mem_saveUser db _ y hy with rfl | ⟨_, hne⟩
      · simp
      · exfalso
        apply hne
        have : some y._id = some user._id := hyid.trans huid.symm
        simpa using this

/-- C1, refuted as stated: `alice` holds an outstanding reset token issued in clock
second 1.  `/reset-password` with it succeeds; a `/forgot-password` for her account
served in the same second mails the same string again; a later `/reset-password` with
the consumed string answers 200 and her password becomes the hash of `secret3`.  And a
later `/reset-password` that carries the consumed token but no new password is
answered with `Token and new password are required.`. -/
theorem consumed_reset_token_accepted_again :
    (resetPassword demoJwt demoBcrypt [alicePending] (envAt 1200) (some aliceResetToken)
        (some "secret2")).res.status = 200 ∧
      mailsOf demoJwt demoBcrypt []
        (resetPassword demoJwt demoBcrypt [alicePending] (envAt 1200) (some aliceResetToken)
          (some "secret2")).users
        [(envAt 1500, .forgotPassword (some "a@x.com") none)] =
        [⟨"a@x.com", "en", aliceResetToken⟩] ∧
      resetPassword demoJwt demoBcrypt
        (run demoJwt demoBcrypt []
          (resetPassword demoJwt demoBcrypt [alicePending] (envAt 1200) (some aliceResetToken)
            (some "secret2")).users
          [(envAt 1500, .forgotPassword (some "a@x.com") none)])
        (envAt 1800) (some aliceResetToken) (some "secret3") =
        ⟨⟨200, .message "Password has been reset successfully.", none⟩,
          [{ alice with password := demoBcrypt.hash "secret3" 10 0 }], []⟩ ∧
      (resetPassword demoJwt demoBcrypt
        (resetPassword demoJwt demoBcrypt [alicePending] (envAt 1200) (some aliceResetToken)
          (some "secret2")).users
        (envAt 1800) (some aliceResetToken) none).res =
        ⟨400, .message "Token and new password are required.", none⟩ := by
  decide

/-- C1, amended: once `POST /reset-password` with the token `t` has answered 200, and
whatever requests to the router are served afterwards, as long as none of them mails
the string `t` out again, every later `POST /reset-password` with `t` is answered with
status 400 and leaves the collection, the passwords with it, as it was; when the
request carries a new password the body is `Invalid or expired token.`.  The embedded
expiry of `t` plays no part. -/
theorem consumed_reset_token_rejected (jwt : JwtLib) (bc : Bcrypt)
    (instructors : List Instructor) (db : List User) (env : Env) (t n : String)
    (hok : (resetPassword jwt bc db env (some t) (some n)).res.status = 200)
    (ops : List (Env × Op))
    (hno : ∀ m ∈ mailsOf jwt bc instructors
      (resetPassword jwt bc db env (some t) (some n)).users ops, m.resetToken ≠ t)
    (env2 : Env) (n2 : Option String) :
    (resetPassword jwt bc
        (run jwt bc instructors (resetPassword jwt bc db env (some t) (some n)).users ops)
        env2 (some t) n2).res.status = 400 ∧
      (resetPassword jwt bc
        (run jwt bc instructors (resetPassword jwt bc db env (some t) (some n)).users ops)
        env2 (some t) n2).users =
        run jwt bc instructors (resetPassword jwt bc db env (some t) (some n)).users ops ∧
      (truthy n2 = true →
        (resetPassword jwt bc
          (run jwt bc instructors (resetPassword jwt bc db env (some t) (some n)).users ops)
          env2 (some t) n2).res = ⟨400, .message "Invalid or expired token.", none⟩) := by
  obtain ⟨ht, p, hdec, hinv⟩ := resetPassword_ok_inv jwt bc db env t n hok
  exact resetPassword_rejected jwt bc p t _ env2 n2 ht hdec
    (run_keeps_tokenCleared jwt bc instructors p t ops _ hinv hno)

theorem consumed_reset_token_rejected_witness :
    (resetPassword demoJwt demoBcrypt
      (run demoJwt demoBcrypt []
        (resetPassword demoJwt demoBcrypt [alicePending] (envAt 1200) (some aliceResetToken)
          (some "secret2")).users
        [(envAt 5000, .forgotPassword (some "a@x.com") none),
         (envAt 6000, .login "a@x.com" "secret2")])
      (envAt 7000) (some aliceResetToken) (some "secret3")).res =
      ⟨400, .message "Invalid or expired token.", none⟩ :=
  (consumed_reset_token_rejected demoJwt demoBcrypt [] [alicePending] (envAt 1200)
    aliceResetToken "secret2" (by decide)
    [(envAt 5000, .forgotPassword (some "a@x.com") none),
     (envAt 6000, .login "a@x.com" "secret2")]
    (by decide) (envAt 7000) (some "secret3")).2.2 (by decide)

/-! ## Where the extractor and its specification agree -/

theorem stripBearer_bearer (t : String) : stripBearer ("Bearer " ++ t) = t := by
  have hpre : "Bearer ".data.isPrefixOf ("Bearer " ++ t).data = true := by
    rw [String.data_append, List.isPrefixOf_iff_prefix]
    exact List.prefix_append _ _
  unfold stripBearer
  rw [if_pos hpre]
  apply String.ext
  show ("Bearer " ++ t).data.drop "Bearer ".data.length = t.data
  rw [String.data_append, List.drop_left]

theorem usedToken_eq_extractSpec_of_cookie (req : Request)
    (hc : truthy req.cookieToken = true) : usedToken req = extractSpec req := by
  simp [usedToken, extractToken, extractSpec, hc]

theorem usedToken_eq_extractSpec_of_bearer (req : Request) (t : String)
    (hc : truthy req.cookieToken = false)
    (ha : req.authorization = some ("Bearer " ++ t)) : usedToken req = extractSpec req := by
  have hx := extractToken_bearer req t hc ha
  have hspec : extractSpec req =
      if stripBearer ("Bearer " ++ t) = "" then none
      else some (stripBearer ("Bearer " ++ t)) := by
    simp [extractSpec, hc, ha]
  have hused : usedToken req = if truthy (some t) = true then some t else none := by
    simp [usedToken, hx]
  rw [hspec, hused, stripBearer_bearer]
  by_cases ht : t = ""
  · simp [truthy, ht]
  · simp [truthy, ht]

theorem usedToken_eq_extractSpec_of_no_header (req : Request)
    (hc : truthy req.cookieToken = false) (ha : truthy req.authorization = false) :
    usedToken req = none ∧ extractSpec req = none := by
  constructor
  · simp [usedToken, extractToken, hc, ha]
  · cases hh : req.authorization with
    | none => simp [extractSpec, hc, hh]
    | some a =>
      have : a = "" := by simpa [hh, truthy] using ha
      subst this
      simp [extractSpec, hc, hh]
      decide

theorem me_no_token (jwt : JwtLib) (db : List User) (env : Env) (req : Request)
    (h : usedToken req = none) :
    me jwt db env req = ⟨401, .error "No token", none⟩ ∧
      updateLocation jwt db env req = ⟨⟨401, .error "No token", none⟩, db, []⟩ := by
  cases hx : extractToken req with
  | none => simp [me, updateLocation, hx]
  | some t =>
    have ht : t = "" := by
      by_contra hne
      have : truthy (some t) = true := (truthy_some_iff t).mpr hne
      simp [usedToken, hx, this] at h
    subst ht
    simp [me, updateLocation, hx]

end EBack
